import Mathlib

/-! Cleanup coordinator of the volume-snapshot-mover backup controller.

A shallow embedding of `controllers/cleanup.go` (`cleanupVSBTypes`,
`CleanVSBBackupResources`, `areVSBResourcesDeleted`) and of the phase
vocabulary of `api/v1alpha1/volumesnapshotrestore_types.go`.

The resource store (the controller-runtime client) is an external
collaborator.  It is embedded as a deterministic state machine over an
arbitrary state type: every operation takes the store state and returns its
answer together with the next state.  Each function of the controller returns
its Go result, the trace of everything it did (log lines and store calls with
the answer each call got) and the final store state.
-/

namespace VolumeSnapshotMover

/-! ## api/v1alpha1/volumesnapshotrestore_types.go -/

abbrev VolumeSnapshotRestorePhase := String

def SnapMoverRestoreVolSyncPhaseCompleted : VolumeSnapshotRestorePhase := "SnapshotRestoreDone"

def SnapMoverRestorePhaseCompleted : VolumeSnapshotRestorePhase := "Completed"

def SnapMoverRestorePhaseInProgress : VolumeSnapshotRestorePhase := "InProgress"

def SnapMoverRestorePhaseFailed : VolumeSnapshotRestorePhase := "Failed"

def SnapMoverRestorePhasePartiallyFailed : VolumeSnapshotRestorePhase := "PartiallyFailed"

def SnapMoverRestorePhaseCleanup : VolumeSnapshotRestorePhase := "Cleanup"

abbrev VolumeSnapshotRestoreBatchingStatus := String

def SnapMoverRestoreBatchingCompleted : VolumeSnapshotRestoreBatchingStatus := "Completed"

def SnapMoverRestoreBatchingQueued : VolumeSnapshotRestoreBatchingStatus := "Queued"

def SnapMoverRestoreBatchingProcessing : VolumeSnapshotRestoreBatchingStatus := "Processing"

/-! ## Kubernetes objects read by the cleanup code -/

/-- The `metav1.Condition` entries of a status. -/
structure Condition where
  Type_ : String
  Status : String
  Reason : String
  Message : String
deriving DecidableEq, Repr

/-- The `corev1.ObjectReference` fields the controller reads. -/
structure ObjectReference where
  Name : String
  Namespace : String
deriving DecidableEq, Repr

/-- The `types.NamespacedName` key of a lookup. -/
structure NamespacedName where
  Name : String
  Namespace : String
deriving DecidableEq, Repr

abbrev VolumeSnapshotBackupPhase := String

abbrev VolumeSnapshotBackupBatchingStatus := String

/-- Modelled from the spec: the declaration of `VolumeSnapshotBackupSpec` is not among the
sources.  The fields are the credential reference and protected namespace of the persisted
backup schema, and the `VolumeSnapshotContent` reference that `cleanup.go` reads. -/
structure VolumeSnapshotBackupSpec where
  VolumeSnapshotContent : ObjectReference
  ProtectedNamespace : String
  ResticSecretRef : String
deriving DecidableEq, Repr

/-- Modelled from the spec: the declaration of `VolumeSnapshotBackupStatus` is not among the
sources.  The fields are those of the persisted backup schema (phase, batching status,
snapshot handle, staged-snapshot-content name, timestamps, conditions), laid out as in the
restore status of `volumesnapshotrestore_types.go`. -/
structure VolumeSnapshotBackupStatus where
  Conditions : List Condition
  Phase : VolumeSnapshotBackupPhase
  BatchingStatus : VolumeSnapshotBackupBatchingStatus
  SnapshotHandle : String
  VolumeSnapshotContentName : String
  StartTimestamp : Option Int
  CompletionTimestamp : Option Int
deriving DecidableEq, Repr

/-- Modelled from the spec: the declaration of `VolumeSnapshotBackup` is not among the
sources; object metadata (name, namespace), spec and status as for the restore job. -/
structure VolumeSnapshotBackup where
  Name : String
  Namespace : String
  Spec : VolumeSnapshotBackupSpec
  Status : VolumeSnapshotBackupStatus
deriving DecidableEq, Repr

/-- The part of `snapv1.VolumeSnapshotContent` read by the verification pass:
`Spec.VolumeSnapshotRef`. -/
structure VolumeSnapshotContentSpec where
  VolumeSnapshotRef : ObjectReference
deriving DecidableEq, Repr

structure VolumeSnapshotContent where
  Name : String
  Spec : VolumeSnapshotContentSpec
deriving DecidableEq, Repr

/-- The object kinds the cleanup code passes to the store. -/
inductive Kind where
  | PersistentVolumeClaim
  | Pod
  | VolumeSnapshot
  | VolumeSnapshotContent
  | Secret
  | ReplicationSource
  | VolumeSnapshotBackup
deriving DecidableEq, Repr

/-- What a successful `Get` of a kind hands back to the caller.  For the kinds whose
fetched object the cleanup code never reads, nothing is kept. -/
@[reducible] def Kind.Obj : Kind → Type
  | .VolumeSnapshotBackup => VolumeSnapshotMover.VolumeSnapshotBackup
  | .VolumeSnapshotContent => VolumeSnapshotMover.VolumeSnapshotContent
  | _ => Unit

/-- A store error, as an API status error: its reason and its message. -/
structure Err where
  Reason : String
  Message : String
deriving DecidableEq, Repr

/-- The test `k8serror.IsNotFound`: the reason of the error is `NotFound`. -/
def IsNotFound (err : Err) : Bool := err.Reason == "NotFound"

/-- The options of a bulk delete: `client.MatchingLabels` and `client.InNamespace`. -/
inductive DeleteAllOfOption where
  | MatchingLabels (labels : List (String × String))
  | InNamespace (ns : String)
deriving DecidableEq, Repr

/-- The store operations the cleanup code consumes, over a store state `σ`:
`Get`, `DeleteAllOf` and the status sub-channel `Status().Update`. -/
structure Client (σ : Type) where
  Get : σ → (kind : Kind) → NamespacedName → Except Err kind.Obj × σ
  DeleteAllOf : σ → Kind → List DeleteAllOfOption → Option Err × σ
  StatusUpdate : σ → VolumeSnapshotBackup → Option Err × σ

/-- One step of a run: a log line, or a store call with the error it returned
(`none` when the call succeeded). -/
inductive Event where
  | Info (msg : String)
  | Error (err : Err) (msg : String)
  | Get (kind : Kind) (key : NamespacedName) (err : Option Err)
  | DeleteAllOf (kind : Kind) (opts : List DeleteAllOfOption) (err : Option Err)
  | StatusUpdate (obj : VolumeSnapshotBackup) (err : Option Err)
deriving DecidableEq, Repr

/-- The outcome of a run: the Go result pair, the trace and the final store state. -/
structure Run (σ : Type) where
  result : Bool × Option Err
  trace : List Event
  state : σ

/-- Modelled from the spec: `VSBLabel`, `DatamoverVolSyncPhaseCompleted` and
`DatamoverBackupPhaseCompleted` are declared outside the sources; they are the ownership
label key, the transfer-completed phase and the bookkeeping-complete phase of a backup job. -/
structure Consts where
  VSBLabel : String
  DatamoverVolSyncPhaseCompleted : VolumeSnapshotBackupPhase
  DatamoverBackupPhaseCompleted : VolumeSnapshotBackupPhase

/-! ## controllers/cleanup.go -/

def cleanupVSBTypes : List Kind :=
  [ .PersistentVolumeClaim,
    .Pod,
    .VolumeSnapshot,
    .VolumeSnapshotContent,
    .Secret,
    .ReplicationSource ]

/-- The loop `for _, obj := range cleanupVSBTypes` of `CleanVSBBackupResources`, over the
kinds still to delete: the error that ended it (if any), its trace and the store state. -/
def deleteLoop {σ : Type} (c : Client σ) (deleteOptions : List DeleteAllOfOption) :
    List Kind → σ → Option Err × List Event × σ
  | [], s => (none, [], s)
  | obj :: rest, s =>
    match c.DeleteAllOf s obj deleteOptions with
    | (some err, s1) =>
      (some err, [Event.DeleteAllOf obj deleteOptions (some err),
                  Event.Error err "unable to delete VSB resource"], s1)
    | (none, s1) =>
      match deleteLoop c deleteOptions rest s1 with
      | (r, t, s2) => (r, Event.DeleteAllOf obj deleteOptions none :: t, s2)

/-- The function `(r *VolumeSnapshotBackupReconciler) CleanVSBBackupResources`; `req` is
`r.req.NamespacedName` and `s` the store state when the function is entered. -/
def CleanVSBBackupResources {σ : Type} (K : Consts) (c : Client σ) (req : NamespacedName)
    (s : σ) : Run σ :=
  let t0 := [Event.Info "In function CleanBackupResources"]
  match c.Get s .VolumeSnapshotBackup req with
  | (.error err, s1) =>
    ⟨(false, some err), t0 ++ [Event.Get .VolumeSnapshotBackup req (some err)], s1⟩
  | (.ok vsb, s1) =>
    let t1 := t0 ++ [Event.Get .VolumeSnapshotBackup req none]
    if vsb.Status.Phase ≠ K.DatamoverVolSyncPhaseCompleted then
      ⟨(false, none),
        t1 ++ [Event.Info "waiting for volSync to complete before deleting resources"], s1⟩
    else
      let deleteOptions : List DeleteAllOfOption :=
        [ .MatchingLabels [(K.VSBLabel, vsb.Name)],
          .InNamespace vsb.Spec.ProtectedNamespace ]
      match deleteLoop c deleteOptions cleanupVSBTypes s1 with
      | (some err, t2, s2) => ⟨(false, some err), t1 ++ t2, s2⟩
      | (none, t2, s2) =>
        let vsb1 : VolumeSnapshotBackup :=
          { vsb with Status := { vsb.Status with Phase := K.DatamoverBackupPhaseCompleted } }
        match c.StatusUpdate s2 vsb1 with
        | (some err, s3) =>
          ⟨(false, some err), t1 ++ t2 ++ [Event.StatusUpdate vsb1 (some err)], s3⟩
        | (none, s3) =>
          ⟨(true, none),
            t1 ++ t2 ++ [Event.StatusUpdate vsb1 none,
              Event.Info "returning from cleaning VSB resources as completed"], s3⟩

/-- The function `(r *VolumeSnapshotBackupReconciler) areVSBResourcesDeleted`.  `Sprintf` is
the library function `fmt.Sprintf` applied to a format string with no operands, which the
fourth lookup uses to build its name; `s` is the store state on entry. -/
def areVSBResourcesDeleted {σ : Type} (Sprintf : String → String) (c : Client σ)
    (vsb : VolumeSnapshotBackup) (s : σ) : Run σ :=
  -- check the cloned PVC has been deleted
  let pvcKey : NamespacedName :=
    ⟨vsb.Spec.VolumeSnapshotContent.Name ++ "-pvc", vsb.Spec.ProtectedNamespace⟩
  match c.Get s .PersistentVolumeClaim pvcKey with
  | (.error err, s1) =>
    ⟨(false, some err),
      Event.Get .PersistentVolumeClaim pvcKey (some err) ::
        (if IsNotFound err then [Event.Info "cloned volumesnapshot has been deleted"] else []),
      s1⟩
  | (.ok _, s1) =>
  let t1 := [Event.Get .PersistentVolumeClaim pvcKey none]
  -- check dummy pod is deleted
  let podKey : NamespacedName := ⟨vsb.Name ++ "-pod", vsb.Spec.ProtectedNamespace⟩
  match c.Get s1 .Pod podKey with
  | (.error err, s2) =>
    ⟨(false, some err),
      t1 ++ Event.Get .Pod podKey (some err) ::
        (if IsNotFound err then [Event.Info "dummy pod has been deleted"] else []),
      s2⟩
  | (.ok _, s2) =>
  let t2 := t1 ++ [Event.Get .Pod podKey none]
  -- check the cloned VSC has been deleted
  let vscKey : NamespacedName := ⟨vsb.Spec.VolumeSnapshotContent.Name ++ "-clone", ""⟩
  match c.Get s2 .VolumeSnapshotContent vscKey with
  | (.error err, s3) =>
    ⟨(false, some err),
      t2 ++ Event.Get .VolumeSnapshotContent vscKey (some err) ::
        (if IsNotFound err then
          [Event.Info "cloned volumesnapshotcontent has been deleted"] else []),
      s3⟩
  | (.ok vscClone, s3) =>
  let t3 := t2 ++ [Event.Get .VolumeSnapshotContent vscKey none]
  -- check the cloned VS has been deleted
  let vsKey : NamespacedName :=
    ⟨Sprintf vscClone.Spec.VolumeSnapshotRef.Name, vsb.Spec.ProtectedNamespace⟩
  match c.Get s3 .VolumeSnapshotContent vsKey with
  | (.error err, s4) =>
    ⟨(false, some err),
      t3 ++ Event.Get .VolumeSnapshotContent vsKey (some err) ::
        (if IsNotFound err then [Event.Info "cloned volumesnapshot has been deleted"] else []),
      s4⟩
  | (.ok _, s4) =>
  let t4 := t3 ++ [Event.Get .VolumeSnapshotContent vsKey none]
  -- check secret has been deleted
  let secretKey : NamespacedName := ⟨vsb.Name ++ "-secret", vsb.Spec.ProtectedNamespace⟩
  match c.Get s4 .Secret secretKey with
  | (.error err, s5) =>
    ⟨(false, some err),
      t4 ++ Event.Get .Secret secretKey (some err) ::
        (if IsNotFound err then [Event.Info "restic secret has been deleted"] else []),
      s5⟩
  | (.ok _, s5) =>
  let t5 := t4 ++ [Event.Get .Secret secretKey none]
  -- check replicationSource has been deleted
  let repKey : NamespacedName := ⟨vsb.Name ++ "-rep-src", vsb.Spec.ProtectedNamespace⟩
  match c.Get s5 .ReplicationSource repKey with
  | (.error err, s6) =>
    ⟨(false, some err),
      t5 ++ Event.Get .ReplicationSource repKey (some err) ::
        (if IsNotFound err then [Event.Info "replicationSource has been deleted"] else []),
      s6⟩
  | (.ok _, s6) =>
  -- all resources have been deleted
  ⟨(true, none),
    t5 ++ [Event.Get .ReplicationSource repKey none,
      Event.Info "all VSB resources have been deleted"], s6⟩

/-! ## Reading a trace -/

/-- The event is a call to the store (not a log line). -/
def Event.isStoreCall : Event → Bool
  | .Get _ _ _ => true
  | .DeleteAllOf _ _ _ => true
  | .StatusUpdate _ _ => true
  | _ => false

/-- The error a store call returned; `none` for a successful call and for a log line. -/
def Event.answer : Event → Option Err
  | .Get _ _ err => err
  | .DeleteAllOf _ _ err => err
  | .StatusUpdate _ err => err
  | _ => none

/-- The store calls of a trace, in the order they were issued. -/
def storeCalls (t : List Event) : List Event := t.filter Event.isStoreCall

/-- The `DeleteAllOf` calls of a trace, in order: kind and options of each. -/
def deleteAllOfCalls (t : List Event) : List (Kind × List DeleteAllOfOption) :=
  t.filterMap fun
    | .DeleteAllOf kind opts _ => some (kind, opts)
    | _ => none

/-- The objects written by the status updates of a trace, in order. -/
def statusUpdates (t : List Event) : List VolumeSnapshotBackup :=
  t.filterMap fun
    | .StatusUpdate obj _ => some obj
    | _ => none

/-- The lookups (`Get` calls) of a trace, in order: kind and key of each. -/
def lookups (t : List Event) : List (Kind × NamespacedName) :=
  t.filterMap fun
    | .Get kind key _ => some (kind, key)
    | _ => none

/-- The options `CleanVSBBackupResources` builds for the job it fetched: the label selector
`VSBLabel == vsb.Name` and the namespace `vsb.Spec.ProtectedNamespace`. -/
def deleteOptionsOf (K : Consts) (vsb : VolumeSnapshotBackup) : List DeleteAllOfOption :=
  [ .MatchingLabels [(K.VSBLabel, vsb.Name)],
    .InNamespace vsb.Spec.ProtectedNamespace ]

/-- The job `vsb` with `Status.Phase` set to `phase` and nothing else changed. -/
def withPhase (vsb : VolumeSnapshotBackup) (phase : VolumeSnapshotBackupPhase) :
    VolumeSnapshotBackup :=
  { vsb with Status := { vsb.Status with Phase := phase } }

/-- The store state reached from `s` once `DeleteAllOf` has been called, with options
`opts`, for each kind of `kinds` in turn. -/
def stateAfterDeletes {σ : Type} (c : Client σ) (opts : List DeleteAllOfOption)
    (kinds : List Kind) (s : σ) : σ :=
  kinds.foldl (fun st kind => (c.DeleteAllOf st kind opts).2) s

/-- Every one of the `DeleteAllOf` calls for `kinds`, issued in turn from state `s` with
options `opts`, succeeds. -/
def deletesSucceed {σ : Type} (c : Client σ) (opts : List DeleteAllOfOption) :
    List Kind → σ → Bool
  | [], _ => true
  | kind :: rest, s =>
    (c.DeleteAllOf s kind opts).1.isNone && deletesSucceed c opts rest (c.DeleteAllOf s kind opts).2

/-- The trace of successful deletes of `kinds`: one `DeleteAllOf` event per kind, in order,
each answered without error. -/
def okDeletes (opts : List DeleteAllOfOption) (kinds : List Kind) : List Event :=
  kinds.map fun kind => Event.DeleteAllOf kind opts none

/-! ## Stores to run the code on -/

/-- A store that answers from a script: each call consumes the next entry, failing with the
error written there if there is one; once the script is used up every call succeeds.  A
successful `Get` hands back `vsb` for a backup job and `vsc` for a snapshot content. -/
def scriptedClient (vsb : VolumeSnapshotBackup) (vsc : VolumeSnapshotContent) :
    Client (List (Option Err)) where
  Get := fun s kind _ =>
    match s.headD none with
    | some err => (.error err, s.tail)
    | none =>
      (.ok (match kind with
        | .VolumeSnapshotBackup => vsb
        | .VolumeSnapshotContent => vsc
        | .PersistentVolumeClaim => ()
        | .Pod => ()
        | .VolumeSnapshot => ()
        | .Secret => ()
        | .ReplicationSource => ()), s.tail)
  DeleteAllOf := fun s _ _ => (s.headD none, s.tail)
  StatusUpdate := fun s _ => (s.headD none, s.tail)

/-- A staged resource held by the model store. -/
structure Staged where
  ObjKind : Kind
  Name : String
  Namespace : String
  Labels : List (String × String)
  VolumeSnapshotRef : ObjectReference
deriving DecidableEq, Repr

/-- The state of the model store: the backup jobs and the staged resources it holds. -/
structure Store where
  jobs : List VolumeSnapshotBackup
  staged : List Staged
deriving DecidableEq, Repr

/-- The staged resource is selected by a bulk delete of `kind` with options `opts`. -/
def Staged.selected (r : Staged) (kind : Kind) (opts : List DeleteAllOfOption) : Bool :=
  r.ObjKind == kind && opts.all fun
    | .MatchingLabels labels => labels.all fun l => r.Labels.contains l
    | .InNamespace ns => r.ObjKind == .VolumeSnapshotContent || r.Namespace == ns

/-- The staged resource is the one a `Get` of `kind` at `key` names (a snapshot content is
cluster-scoped, so its namespace is not compared). -/
def Staged.named (r : Staged) (kind : Kind) (key : NamespacedName) : Bool :=
  r.ObjKind == kind && r.Name == key.Name &&
    (r.ObjKind == .VolumeSnapshotContent || r.Namespace == key.Namespace)

/-- The error of the model store for a key it holds nothing under. -/
def notFound (key : NamespacedName) : Err :=
  ⟨"NotFound", key.Namespace ++ "/" ++ key.Name ++ " not found"⟩

/-- The model store, all of whose operations succeed on what it holds: `Get` returns the
stored object with the given key (`NotFound` when it holds none), `DeleteAllOf` removes the
selected staged resources, and the status update replaces the status of the stored job of
the same name and namespace (`NotFound` when it holds none). -/
def modelClient : Client Store where
  Get := fun s kind key =>
    match kind with
    | .VolumeSnapshotBackup =>
      match s.jobs.find? fun j => j.Name == key.Name && j.Namespace == key.Namespace with
      | some j => (.ok j, s)
      | none => (.error (notFound key), s)
    | .VolumeSnapshotContent =>
      match s.staged.find? fun r => r.named .VolumeSnapshotContent key with
      | some r => (.ok ⟨r.Name, ⟨r.VolumeSnapshotRef⟩⟩, s)
      | none => (.error (notFound key), s)
    | .PersistentVolumeClaim =>
      if s.staged.any fun r => r.named .PersistentVolumeClaim key then (.ok (), s)
      else (.error (notFound key), s)
    | .Pod =>
      if s.staged.any fun r => r.named .Pod key then (.ok (), s)
      else (.error (notFound key), s)
    | .VolumeSnapshot =>
      if s.staged.any fun r => r.named .VolumeSnapshot key then (.ok (), s)
      else (.error (notFound key), s)
    | .Secret =>
      if s.staged.any fun r => r.named .Secret key then (.ok (), s)
      else (.error (notFound key), s)
    | .ReplicationSource =>
      if s.staged.any fun r => r.named .ReplicationSource key then (.ok (), s)
      else (.error (notFound key), s)
  DeleteAllOf := fun s kind opts =>
    (none, { s with staged := s.staged.filter fun r => !r.selected kind opts })
  StatusUpdate := fun s obj =>
    if s.jobs.any fun j => j.Name == obj.Name && j.Namespace == obj.Namespace then
      (none, { s with jobs := s.jobs.map fun j =>
        if j.Name == obj.Name && j.Namespace == obj.Namespace then
          { j with Status := obj.Status } else j })
    else (some (notFound ⟨obj.Name, obj.Namespace⟩), s)

/-! ## Sample data -/

/-- Constants for the examples: the two phase markers are those of the restore job in
`volumesnapshotrestore_types.go`. -/
def sampleConsts : Consts :=
  ⟨"vsb-label", SnapMoverRestoreVolSyncPhaseCompleted, SnapMoverRestorePhaseCompleted⟩

/-- A backup job `b1` in namespace `ns1` whose transfer has completed. -/
def sampleVSB : VolumeSnapshotBackup :=
  ⟨"b1", "ns1", ⟨⟨"snapcontent", ""⟩, "ns1", "restic-secret"⟩,
    ⟨[], SnapMoverRestoreVolSyncPhaseCompleted, "Processing", "handle", "snapcontent",
      some 1, none⟩⟩

/-- The job `b1` while its transfer is still running. -/
def runningVSB : VolumeSnapshotBackup :=
  { sampleVSB with Status := { sampleVSB.Status with Phase := SnapMoverRestorePhaseInProgress } }

/-- The cloned snapshot content of `b1`, bound to the cloned snapshot `vs-clone`. -/
def sampleVSC : VolumeSnapshotContent := ⟨"snapcontent-clone", ⟨⟨"vs-clone", "ns1"⟩⟩⟩

def sampleReq : NamespacedName := ⟨"b1", "ns1"⟩

/-- A store error that is not `NotFound`. -/
def boom : Err := ⟨"InternalError", "boom"⟩

/-- The six staged resources of `b1`, each labelled with the job name, in `ns1`. -/
def sampleStaged : List Staged :=
  [ ⟨.PersistentVolumeClaim, "snapcontent-pvc", "ns1", [("vsb-label", "b1")], ⟨"", ""⟩⟩,
    ⟨.Pod, "b1-pod", "ns1", [("vsb-label", "b1")], ⟨"", ""⟩⟩,
    ⟨.VolumeSnapshot, "vs-clone", "ns1", [("vsb-label", "b1")], ⟨"", ""⟩⟩,
    ⟨.VolumeSnapshotContent, "snapcontent-clone", "", [("vsb-label", "b1")],
      ⟨"vs-clone", "ns1"⟩⟩,
    ⟨.Secret, "b1-secret", "ns1", [("vsb-label", "b1")], ⟨"", ""⟩⟩,
    ⟨.ReplicationSource, "b1-rep-src", "ns1", [("vsb-label", "b1")], ⟨"", ""⟩⟩ ]

/-- A model store holding `b1`, its staged resources, and a pod staged for another job. -/
def sampleStore : Store :=
  ⟨[sampleVSB],
    sampleStaged ++ [⟨.Pod, "b2-pod", "ns1", [("vsb-label", "b2")], ⟨"", ""⟩⟩]⟩

/-- A model store holding `b1` and none of its staged resources: cleanup has converged. -/
def cleanedStore : Store := ⟨[sampleVSB], []⟩

/-! ## Observers and concatenation -/

theorem storeCalls_append (a b : List Event) :
    storeCalls (a ++ b) = storeCalls a ++ storeCalls b := by
  simp only [storeCalls, List.filter_append]

theorem deleteAllOfCalls_append (a b : List Event) :
    deleteAllOfCalls (a ++ b) = deleteAllOfCalls a ++ deleteAllOfCalls b := by
  simp only [deleteAllOfCalls, List.filterMap_append]

theorem statusUpdates_append (a b : List Event) :
    statusUpdates (a ++ b) = statusUpdates a ++ statusUpdates b := by
  simp only [statusUpdates, List.filterMap_append]

/-- In a list of store calls that all succeeded, followed by one more call, a call that
failed can only be that last one. -/
theorem failed_call_is_last (l : List Event) (last : Event)
    (hl : ∀ ev ∈ l, ev.answer = none) (pre : List Event) (ev : Event) (post : List Event)
    (e : Err) (hsplit : l ++ [last] = pre ++ ev :: post) (hev : ev.answer = some e) :
    ev = last ∧ post = [] := by
  induction l generalizing pre with
  | nil =>
    cases pre with
    | nil =>
      simp only [List.nil_append, List.cons.injEq] at hsplit
      exact ⟨hsplit.1.symm, hsplit.2.symm⟩
    | cons a pre1 =>
      simp only [List.nil_append, List.cons_append, List.cons.injEq] at hsplit
      have h2 := hsplit.2
      cases pre1 <;> simp at h2
  | cons a l1 ih =>
    cases pre with
    | nil =>
      simp only [List.cons_append, List.nil_append, List.cons.injEq] at hsplit
      have ha := hl a (List.mem_cons_self a l1)
      rw [hsplit.1, hev] at ha
      simp only [reduceCtorEq] at ha
    | cons b pre1 =>
      simp only [List.cons_append, List.cons.injEq] at hsplit
      exact ih (fun x hx => hl x (List.mem_cons_of_mem a hx)) pre1 hsplit.2

/-- In a list of store calls that all succeeded, no call failed. -/
theorem no_failed_call (l : List Event) (hl : ∀ ev ∈ l, ev.answer = none)
    (pre : List Event) (ev : Event) (post : List Event) (e : Err)
    (hsplit : l = pre ++ ev :: post) (hev : ev.answer = some e) : False := by
  have hmem : ev ∈ l := by
    rw [hsplit]
    exact List.mem_append_right pre (List.mem_cons_self ev post)
  rw [hl ev hmem] at hev
  simp only [reduceCtorEq] at hev

/-! ## The delete loop -/

section Loop

variable {σ : Type} (c : Client σ) (opts : List DeleteAllOfOption)

theorem deleteLoop_of_succeed (kinds : List Kind) (s : σ)
    (h : deletesSucceed c opts kinds s = true) :
    deleteLoop c opts kinds s = (none, okDeletes opts kinds, stateAfterDeletes c opts kinds s) := by
  induction kinds generalizing s with
  | nil => rfl
  | cons kind rest ih =>
    simp only [deletesSucceed, Bool.and_eq_true, Option.isNone_iff_eq_none] at h
    obtain ⟨h1, h2⟩ := h
    have hd : c.DeleteAllOf s kind opts = (none, (c.DeleteAllOf s kind opts).2) := by
      rw [← h1]
    rw [deleteLoop, hd]
    simp only [ih _ h2, okDeletes, List.map_cons, stateAfterDeletes, List.foldl_cons]

theorem deleteLoop_of_fail (pre : List Kind) (kind : Kind) (post : List Kind) (s : σ) (e : Err)
    (hok : deletesSucceed c opts pre s = true)
    (hfail : (c.DeleteAllOf (stateAfterDeletes c opts pre s) kind opts).1 = some e) :
    deleteLoop c opts (pre ++ kind :: post) s =
      (some e,
        okDeletes opts pre ++
          [Event.DeleteAllOf kind opts (some e), Event.Error e "unable to delete VSB resource"],
        (c.DeleteAllOf (stateAfterDeletes c opts pre s) kind opts).2) := by
  induction pre generalizing s with
  | nil =>
    have hd : c.DeleteAllOf s kind opts = (some e, (c.DeleteAllOf s kind opts).2) := by
      simp only [stateAfterDeletes, List.foldl_nil] at hfail
      rw [← hfail]
    simp only [List.nil_append, deleteLoop, okDeletes, List.map_nil,
      stateAfterDeletes, List.foldl_nil]
    rw [hd]
  | cons k0 rest ih =>
    simp only [deletesSucceed, Bool.and_eq_true, Option.isNone_iff_eq_none] at hok
    obtain ⟨h1, h2⟩ := hok
    have hd : c.DeleteAllOf s k0 opts = (none, (c.DeleteAllOf s k0 opts).2) := by
      rw [← h1]
    simp only [stateAfterDeletes, List.foldl_cons] at hfail
    rw [List.cons_append, deleteLoop, hd]
    simp only [ih _ h2 hfail, okDeletes, List.map_cons, List.cons_append, stateAfterDeletes,
      List.foldl_cons]

/-- Whatever the store answers, the loop either ran through all kinds, every delete
succeeding, or stopped at the first delete that failed. -/
theorem deleteLoop_cases (kinds : List Kind) (s : σ) :
    (deletesSucceed c opts kinds s = true ∧
      deleteLoop c opts kinds s =
        (none, okDeletes opts kinds, stateAfterDeletes c opts kinds s)) ∨
    (∃ pre kind post e, kinds = pre ++ kind :: post ∧
      deletesSucceed c opts pre s = true ∧
      (c.DeleteAllOf (stateAfterDeletes c opts pre s) kind opts).1 = some e ∧
      deleteLoop c opts kinds s =
        (some e,
          okDeletes opts pre ++
            [Event.DeleteAllOf kind opts (some e),
              Event.Error e "unable to delete VSB resource"],
          (c.DeleteAllOf (stateAfterDeletes c opts pre s) kind opts).2)) := by
  induction kinds generalizing s with
  | nil => exact Or.inl ⟨rfl, rfl⟩
  | cons k0 rest ih =>
    cases hd : (c.DeleteAllOf s k0 opts).1 with
    | some e =>
      refine Or.inr ⟨[], k0, rest, e, rfl, rfl, hd, ?_⟩
      exact deleteLoop_of_fail c opts [] k0 rest s e rfl hd
    | none =>
      rcases ih (c.DeleteAllOf s k0 opts).2 with ⟨h1, _⟩ | ⟨pre, kind, post, e, hk, h1, h2, _⟩
      · have hs : deletesSucceed c opts (k0 :: rest) s = true := by
          simp only [deletesSucceed, hd, Option.isNone_none, h1, Bool.and_self]
        exact Or.inl ⟨hs, deleteLoop_of_succeed c opts _ s hs⟩
      · have hs : deletesSucceed c opts (k0 :: pre) s = true := by
          simp only [deletesSucceed, hd, Option.isNone_none, h1, Bool.and_self]
        have hf : (c.DeleteAllOf (stateAfterDeletes c opts (k0 :: pre) s) kind opts).1
            = some e := h2
        refine Or.inr ⟨k0 :: pre, kind, post, e, by rw [hk, List.cons_append], hs, hf, ?_⟩
        rw [hk]
        exact deleteLoop_of_fail c opts (k0 :: pre) kind post s e hs hf

theorem deleteAllOfCalls_okDeletes (kinds : List Kind) :
    deleteAllOfCalls (okDeletes opts kinds) = kinds.map fun kind => (kind, opts) := by
  induction kinds with
  | nil => rfl
  | cons k rest ih =>
    simp only [okDeletes, deleteAllOfCalls, List.map_cons, List.filterMap_cons] at ih ⊢
    rw [ih]

theorem statusUpdates_okDeletes (kinds : List Kind) :
    statusUpdates (okDeletes opts kinds) = [] := by
  induction kinds with
  | nil => rfl
  | cons k rest ih =>
    simp only [okDeletes, statusUpdates, List.map_cons, List.filterMap_cons] at ih ⊢
    rw [ih]

theorem storeCalls_okDeletes (kinds : List Kind) :
    storeCalls (okDeletes opts kinds) = okDeletes opts kinds := by
  induction kinds with
  | nil => rfl
  | cons k rest ih =>
    simp only [okDeletes, storeCalls, List.map_cons, List.filter_cons, Event.isStoreCall,
      if_true] at ih ⊢
    rw [ih]

theorem answer_okDeletes (kinds : List Kind) (ev : Event) (h : ev ∈ okDeletes opts kinds) :
    ev.answer = none := by
  simp only [okDeletes, List.mem_map] at h
  obtain ⟨k, _, rfl⟩ := h
  rfl

end Loop

/-! ## The runs of `CleanVSBBackupResources` -/

section Runs

variable {σ : Type} (K : Consts) (c : Client σ) (req : NamespacedName) (s : σ)

/-- The five ways a run of `CleanVSBBackupResources` can go, each with the run it yields:
the fetch fails; the job is not transfer-completed; a delete fails; the status update
fails; everything succeeds. -/
theorem CleanVSBBackupResources_cases :
    (∃ err s1, c.Get s .VolumeSnapshotBackup req = (.error err, s1) ∧
      CleanVSBBackupResources K c req s =
        ⟨(false, some err),
          [Event.Info "In function CleanBackupResources",
            Event.Get .VolumeSnapshotBackup req (some err)], s1⟩) ∨
    (∃ vsb s1, c.Get s .VolumeSnapshotBackup req = (.ok vsb, s1) ∧
      vsb.Status.Phase ≠ K.DatamoverVolSyncPhaseCompleted ∧
      CleanVSBBackupResources K c req s =
        ⟨(false, none),
          [Event.Info "In function CleanBackupResources",
            Event.Get .VolumeSnapshotBackup req none,
            Event.Info "waiting for volSync to complete before deleting resources"], s1⟩) ∨
    (∃ vsb s1 pre kind post e, c.Get s .VolumeSnapshotBackup req = (.ok vsb, s1) ∧
      vsb.Status.Phase = K.DatamoverVolSyncPhaseCompleted ∧
      cleanupVSBTypes = pre ++ kind :: post ∧
      deletesSucceed c (deleteOptionsOf K vsb) pre s1 = true ∧
      (c.DeleteAllOf (stateAfterDeletes c (deleteOptionsOf K vsb) pre s1) kind
        (deleteOptionsOf K vsb)).1 = some e ∧
      CleanVSBBackupResources K c req s =
        ⟨(false, some e),
          [Event.Info "In function CleanBackupResources",
            Event.Get .VolumeSnapshotBackup req none] ++
          (okDeletes (deleteOptionsOf K vsb) pre ++
            [Event.DeleteAllOf kind (deleteOptionsOf K vsb) (some e),
              Event.Error e "unable to delete VSB resource"]),
          (c.DeleteAllOf (stateAfterDeletes c (deleteOptionsOf K vsb) pre s1) kind
            (deleteOptionsOf K vsb)).2⟩) ∨
    (∃ vsb s1 err s3, c.Get s .VolumeSnapshotBackup req = (.ok vsb, s1) ∧
      vsb.Status.Phase = K.DatamoverVolSyncPhaseCompleted ∧
      deletesSucceed c (deleteOptionsOf K vsb) cleanupVSBTypes s1 = true ∧
      c.StatusUpdate (stateAfterDeletes c (deleteOptionsOf K vsb) cleanupVSBTypes s1)
        (withPhase vsb K.DatamoverBackupPhaseCompleted) = (some err, s3) ∧
      CleanVSBBackupResources K c req s =
        ⟨(false, some err),
          [Event.Info "In function CleanBackupResources",
            Event.Get .VolumeSnapshotBackup req none] ++
          okDeletes (deleteOptionsOf K vsb) cleanupVSBTypes ++
          [Event.StatusUpdate (withPhase vsb K.DatamoverBackupPhaseCompleted) (some err)],
          s3⟩) ∨
    (∃ vsb s1 s3, c.Get s .VolumeSnapshotBackup req = (.ok vsb, s1) ∧
      vsb.Status.Phase = K.DatamoverVolSyncPhaseCompleted ∧
      deletesSucceed c (deleteOptionsOf K vsb) cleanupVSBTypes s1 = true ∧
      c.StatusUpdate (stateAfterDeletes c (deleteOptionsOf K vsb) cleanupVSBTypes s1)
        (withPhase vsb K.DatamoverBackupPhaseCompleted) = (none, s3) ∧
      CleanVSBBackupResources K c req s =
        ⟨(true, none),
          [Event.Info "In function CleanBackupResources",
            Event.Get .VolumeSnapshotBackup req none] ++
          okDeletes (deleteOptionsOf K vsb) cleanupVSBTypes ++
          [Event.StatusUpdate (withPhase vsb K.DatamoverBackupPhaseCompleted) none,
            Event.Info "returning from cleaning VSB resources as completed"],
          s3⟩) := by
  rcases hget : c.Get s .VolumeSnapshotBackup req with ⟨r, s1⟩
  cases r with
  | error err =>
    refine Or.inl ⟨err, s1, rfl, ?_⟩
    simp only [CleanVSBBackupResources, hget, List.singleton_append]
  | ok vsb =>
    by_cases hphase : vsb.Status.Phase = K.DatamoverVolSyncPhaseCompleted
    · rcases deleteLoop_cases c (deleteOptionsOf K vsb) cleanupVSBTypes s1 with
        ⟨hok, hloop⟩ | ⟨pre, kind, post, e, hsplit, hok, hfail, hloop⟩
      · rcases hupd : c.StatusUpdate
            (stateAfterDeletes c (deleteOptionsOf K vsb) cleanupVSBTypes s1)
            (withPhase vsb K.DatamoverBackupPhaseCompleted) with ⟨r, s3⟩
        have hupd0 := hupd
        simp only [deleteOptionsOf, withPhase] at hloop hupd
        cases r with
        | some err =>
          refine Or.inr (Or.inr (Or.inr (Or.inl ⟨vsb, s1, err, s3, rfl, hphase, hok, hupd0, ?_⟩)))
          simp only [CleanVSBBackupResources, hget, hphase, ne_eq, not_true_eq_false,
            if_false, hloop, hupd, deleteOptionsOf, withPhase, List.singleton_append]
        | none =>
          refine Or.inr (Or.inr (Or.inr (Or.inr ⟨vsb, s1, s3, rfl, hphase, hok, hupd0, ?_⟩)))
          simp only [CleanVSBBackupResources, hget, hphase, ne_eq, not_true_eq_false,
            if_false, hloop, hupd, deleteOptionsOf, withPhase, List.singleton_append]
      · refine Or.inr (Or.inr (Or.inl
          ⟨vsb, s1, pre, kind, post, e, rfl, hphase, hsplit, hok, hfail, ?_⟩))
        simp only [deleteOptionsOf] at hloop
        simp only [CleanVSBBackupResources, hget, hphase, ne_eq, not_true_eq_false,
          if_false, hloop, deleteOptionsOf, List.singleton_append]
    · refine Or.inr (Or.inl ⟨vsb, s1, rfl, hphase, ?_⟩)
      simp only [CleanVSBBackupResources, hget, ne_eq, hphase, not_false_eq_true, if_true,
        List.singleton_append, List.cons_append, List.nil_append]

/-- The run when the fetched job is not transfer-completed. -/
theorem CleanVSBBackupResources_of_not_completed (vsb : VolumeSnapshotBackup) (s1 : σ)
    (hget : c.Get s .VolumeSnapshotBackup req = (.ok vsb, s1))
    (hphase : vsb.Status.Phase ≠ K.DatamoverVolSyncPhaseCompleted) :
    CleanVSBBackupResources K c req s =
      ⟨(false, none),
        [Event.Info "In function CleanBackupResources",
          Event.Get .VolumeSnapshotBackup req none,
          Event.Info "waiting for volSync to complete before deleting resources"], s1⟩ := by
  simp only [CleanVSBBackupResources, hget, ne_eq, hphase, not_false_eq_true, if_true,
    List.singleton_append, List.cons_append, List.nil_append]

/-- The run when the delete for `kind` is the first to fail, the kinds `pre` before it
having been deleted. -/
theorem CleanVSBBackupResources_of_delete_fail (vsb : VolumeSnapshotBackup) (s1 : σ)
    (pre : List Kind) (kind : Kind) (post : List Kind) (e : Err)
    (hget : c.Get s .VolumeSnapshotBackup req = (.ok vsb, s1))
    (hphase : vsb.Status.Phase = K.DatamoverVolSyncPhaseCompleted)
    (hsplit : cleanupVSBTypes = pre ++ kind :: post)
    (hok : deletesSucceed c (deleteOptionsOf K vsb) pre s1 = true)
    (hfail : (c.DeleteAllOf (stateAfterDeletes c (deleteOptionsOf K vsb) pre s1) kind
      (deleteOptionsOf K vsb)).1 = some e) :
    CleanVSBBackupResources K c req s =
      ⟨(false, some e),
        [Event.Info "In function CleanBackupResources",
          Event.Get .VolumeSnapshotBackup req none] ++
        (okDeletes (deleteOptionsOf K vsb) pre ++
          [Event.DeleteAllOf kind (deleteOptionsOf K vsb) (some e),
            Event.Error e "unable to delete VSB resource"]),
        (c.DeleteAllOf (stateAfterDeletes c (deleteOptionsOf K vsb) pre s1) kind
          (deleteOptionsOf K vsb)).2⟩ := by
  have hloop := deleteLoop_of_fail c (deleteOptionsOf K vsb) pre kind post s1 e hok hfail
  rw [← hsplit] at hloop
  simp only [deleteOptionsOf] at hloop
  simp only [CleanVSBBackupResources, hget, hphase, ne_eq, not_true_eq_false,
    if_false, hloop, deleteOptionsOf, List.singleton_append]

/-- The run when the job is transfer-completed and all deletes succeed, up to the answer of
the status update. -/
theorem CleanVSBBackupResources_of_deleted (vsb : VolumeSnapshotBackup) (s1 : σ)
    (hget : c.Get s .VolumeSnapshotBackup req = (.ok vsb, s1))
    (hphase : vsb.Status.Phase = K.DatamoverVolSyncPhaseCompleted)
    (hok : deletesSucceed c (deleteOptionsOf K vsb) cleanupVSBTypes s1 = true) :
    CleanVSBBackupResources K c req s =
      match c.StatusUpdate (stateAfterDeletes c (deleteOptionsOf K vsb) cleanupVSBTypes s1)
        (withPhase vsb K.DatamoverBackupPhaseCompleted) with
      | (some err, s3) =>
        ⟨(false, some err),
          [Event.Info "In function CleanBackupResources",
            Event.Get .VolumeSnapshotBackup req none] ++
          okDeletes (deleteOptionsOf K vsb) cleanupVSBTypes ++
          [Event.StatusUpdate (withPhase vsb K.DatamoverBackupPhaseCompleted) (some err)],
          s3⟩
      | (none, s3) =>
        ⟨(true, none),
          [Event.Info "In function CleanBackupResources",
            Event.Get .VolumeSnapshotBackup req none] ++
          okDeletes (deleteOptionsOf K vsb) cleanupVSBTypes ++
          [Event.StatusUpdate (withPhase vsb K.DatamoverBackupPhaseCompleted) none,
            Event.Info "returning from cleaning VSB resources as completed"],
          s3⟩ := by
  have hloop := deleteLoop_of_succeed c (deleteOptionsOf K vsb) cleanupVSBTypes s1 hok
  simp only [deleteOptionsOf] at hloop
  simp only [CleanVSBBackupResources, hget, hphase, ne_eq, not_true_eq_false,
    if_false, hloop, deleteOptionsOf, withPhase, List.singleton_append]

/-- The run when the fetch of the job fails. -/
theorem CleanVSBBackupResources_of_get_error (err : Err) (s1 : σ)
    (hget : c.Get s .VolumeSnapshotBackup req = (.error err, s1)) :
    CleanVSBBackupResources K c req s =
      ⟨(false, some err),
        [Event.Info "In function CleanBackupResources",
          Event.Get .VolumeSnapshotBackup req (some err)], s1⟩ := by
  simp only [CleanVSBBackupResources, hget, List.singleton_append]

/-- When the job is transfer-completed and all deletes succeed, the final store state is the
one the status update returned. -/
theorem CleanVSBBackupResources_state_of_deleted (vsb : VolumeSnapshotBackup) (s1 : σ)
    (hget : c.Get s .VolumeSnapshotBackup req = (.ok vsb, s1))
    (hphase : vsb.Status.Phase = K.DatamoverVolSyncPhaseCompleted)
    (hok : deletesSucceed c (deleteOptionsOf K vsb) cleanupVSBTypes s1 = true) :
    (CleanVSBBackupResources K c req s).state =
      (c.StatusUpdate (stateAfterDeletes c (deleteOptionsOf K vsb) cleanupVSBTypes s1)
        (withPhase vsb K.DatamoverBackupPhaseCompleted)).2 := by
  rw [CleanVSBBackupResources_of_deleted K c req s vsb s1 hget hphase hok]
  rcases c.StatusUpdate (stateAfterDeletes c (deleteOptionsOf K vsb) cleanupVSBTypes s1)
      (withPhase vsb K.DatamoverBackupPhaseCompleted) with ⟨r, s3⟩
  cases r <;> rfl

/-- The kind at position `k` (counted from one) splits `cleanupVSBTypes` into the kinds
before it, itself and the kinds after it. -/
theorem cleanupVSBTypes_split (k : Nat) (kind : Kind) (hk1 : 1 ≤ k) (hk6 : k ≤ 6)
    (hkind : cleanupVSBTypes[k - 1]? = some kind) :
    cleanupVSBTypes = cleanupVSBTypes.take (k - 1) ++ kind :: cleanupVSBTypes.drop k := by
  interval_cases k <;> simp [cleanupVSBTypes] at hkind <;> subst hkind <;> rfl

end Runs

/-! ## Claims about `CleanVSBBackupResources` -/

section CleanClaims

variable {σ : Type} (K : Consts) (c : Client σ) (req : NamespacedName) (s : σ)

/-- C1: when the fetch of the job succeeds and the fetched job's `Status.Phase` is not
`DatamoverVolSyncPhaseCompleted`, `CleanVSBBackupResources` issues no `DeleteAllOf` call and
no status update (the fetch is its only store call) and returns `(false, nil)`. -/
theorem CleanVSBBackupResources_proceeds_only_when_transfer_completed
    (vsb : VolumeSnapshotBackup) (s1 : σ)
    (hget : c.Get s .VolumeSnapshotBackup req = (.ok vsb, s1))
    (hphase : vsb.Status.Phase ≠ K.DatamoverVolSyncPhaseCompleted) :
    deleteAllOfCalls (CleanVSBBackupResources K c req s).trace = [] ∧
    statusUpdates (CleanVSBBackupResources K c req s).trace = [] ∧
    storeCalls (CleanVSBBackupResources K c req s).trace =
      [Event.Get .VolumeSnapshotBackup req none] ∧
    (CleanVSBBackupResources K c req s).result = (false, none) := by
  have hrun : CleanVSBBackupResources K c req s =
      ⟨(false, none),
        [Event.Info "In function CleanBackupResources",
          Event.Get .VolumeSnapshotBackup req none,
          Event.Info "waiting for volSync to complete before deleting resources"], s1⟩ := by
    simp only [CleanVSBBackupResources, hget, ne_eq, hphase, not_false_eq_true, if_true,
      List.singleton_append, List.cons_append, List.nil_append]
  rw [hrun]
  exact ⟨rfl, rfl, rfl, rfl⟩

theorem CleanVSBBackupResources_proceeds_only_when_transfer_completed_witness :
    (scriptedClient runningVSB sampleVSC).Get [] .VolumeSnapshotBackup sampleReq
        = (.ok runningVSB, []) ∧
    runningVSB.Status.Phase ≠ sampleConsts.DatamoverVolSyncPhaseCompleted ∧
    deleteAllOfCalls (CleanVSBBackupResources sampleConsts
      (scriptedClient runningVSB sampleVSC) sampleReq []).trace = [] ∧
    statusUpdates (CleanVSBBackupResources sampleConsts
      (scriptedClient runningVSB sampleVSC) sampleReq []).trace = [] ∧
    (CleanVSBBackupResources sampleConsts
      (scriptedClient runningVSB sampleVSC) sampleReq []).result = (false, none) :=
  have h := CleanVSBBackupResources_proceeds_only_when_transfer_completed sampleConsts
    (scriptedClient runningVSB sampleVSC) sampleReq [] runningVSB [] rfl (by decide)
  ⟨rfl, by decide, h.1, h.2.1, h.2.2.2⟩

/-- The `DeleteAllOf` calls of a run, read off its trace: an initial segment of
`cleanupVSBTypes`, each call with the options built from the fetched job. -/
theorem CleanVSBBackupResources_delete_calls :
    ((deleteAllOfCalls (CleanVSBBackupResources K c req s).trace).map Prod.fst
      <+: cleanupVSBTypes) ∧
    (∀ err s1, c.Get s .VolumeSnapshotBackup req = (.error err, s1) →
      deleteAllOfCalls (CleanVSBBackupResources K c req s).trace = []) ∧
    (∀ vsb s1, c.Get s .VolumeSnapshotBackup req = (.ok vsb, s1) →
      (∀ call ∈ deleteAllOfCalls (CleanVSBBackupResources K c req s).trace,
        call.2 = [DeleteAllOfOption.MatchingLabels [(K.VSBLabel, vsb.Name)],
          DeleteAllOfOption.InNamespace vsb.Spec.ProtectedNamespace]) ∧
      (vsb.Status.Phase = K.DatamoverVolSyncPhaseCompleted →
        deletesSucceed c (deleteOptionsOf K vsb) cleanupVSBTypes s1 = true →
        deleteAllOfCalls (CleanVSBBackupResources K c req s).trace =
          cleanupVSBTypes.map fun kind =>
            (kind, [DeleteAllOfOption.MatchingLabels [(K.VSBLabel, vsb.Name)],
              DeleteAllOfOption.InNamespace vsb.Spec.ProtectedNamespace]))) := by
  rcases CleanVSBBackupResources_cases K c req s with
    ⟨err, s1, hget, hrun⟩ | ⟨vsb, s1, hget, hphase, hrun⟩ |
    ⟨vsb, s1, pre, kind, post, e, hget, hphase, hsplit, hok, hfail, hrun⟩ |
    ⟨vsb, s1, err, s3, hget, hphase, hok, hupd, hrun⟩ |
    ⟨vsb, s1, s3, hget, hphase, hok, hupd, hrun⟩
  · have hcalls : deleteAllOfCalls (CleanVSBBackupResources K c req s).trace = [] := by
      rw [hrun]; rfl
    rw [hcalls]
    refine ⟨List.nil_prefix, fun _ _ _ => rfl, fun vsb s1 h => ?_⟩
    rw [hget] at h
    simp only [Prod.mk.injEq, reduceCtorEq, false_and] at h
  · have hcalls : deleteAllOfCalls (CleanVSBBackupResources K c req s).trace = [] := by
      rw [hrun]; rfl
    rw [hcalls]
    refine ⟨List.nil_prefix, fun _ _ _ => rfl, fun vsb2 s2 h => ?_⟩
    rw [hget] at h
    simp only [Prod.mk.injEq, Except.ok.injEq] at h
    obtain ⟨rfl, rfl⟩ := h
    exact ⟨fun _ hc => absurd hc (List.not_mem_nil _), fun h1 => absurd h1 hphase⟩
  · have hcalls : deleteAllOfCalls (CleanVSBBackupResources K c req s).trace =
        (pre ++ [kind]).map fun k => (k, deleteOptionsOf K vsb) := by
      rw [hrun]
      simp only [deleteAllOfCalls_append, deleteAllOfCalls_okDeletes, List.map_append]
      rfl
    rw [hcalls]
    refine ⟨?_, fun err s2 h => ?_, fun vsb2 s2 h => ?_⟩
    · rw [List.map_map, hsplit]
      refine ⟨post, ?_⟩
      simp only [Function.comp_def, List.map_id', List.append_assoc, List.singleton_append]
    · rw [hget] at h
      simp only [Prod.mk.injEq, reduceCtorEq, false_and] at h
    · rw [hget] at h
      simp only [Prod.mk.injEq, Except.ok.injEq] at h
      obtain ⟨rfl, rfl⟩ := h
      refine ⟨fun call hc => ?_, fun _ hall => ?_⟩
      · simp only [List.mem_map] at hc
        obtain ⟨k, _, rfl⟩ := hc
        rfl
      · exfalso
        have hall2 := deleteLoop_of_succeed c (deleteOptionsOf K vsb) cleanupVSBTypes s1 hall
        have hfail2 := deleteLoop_of_fail c (deleteOptionsOf K vsb) pre kind post s1 e hok hfail
        rw [← hsplit, hall2] at hfail2
        simp only [Prod.mk.injEq, reduceCtorEq, false_and] at hfail2
  all_goals
    have hcalls : deleteAllOfCalls (CleanVSBBackupResources K c req s).trace =
        cleanupVSBTypes.map fun k => (k, deleteOptionsOf K vsb) := by
      rw [hrun]
      simp only [deleteAllOfCalls_append, deleteAllOfCalls_okDeletes]
      rfl
    rw [hcalls]
    refine ⟨?_, fun err s2 h => ?_, fun vsb2 s2 h => ?_⟩
    · rw [List.map_map]
      simp only [Function.comp_def, List.map_id', List.prefix_refl]
    · rw [hget] at h
      simp only [Prod.mk.injEq, reduceCtorEq, false_and] at h
    · rw [hget] at h
      simp only [Prod.mk.injEq, Except.ok.injEq] at h
      obtain ⟨rfl, rfl⟩ := h
      refine ⟨fun call hc => ?_, fun _ _ => rfl⟩
      simp only [List.mem_map] at hc
      obtain ⟨k, _, rfl⟩ := hc
      rfl

/-- C2: the fixed list `cleanupVSBTypes` is PersistentVolumeClaim, Pod, VolumeSnapshot,
VolumeSnapshotContent, Secret, ReplicationSource, in that order.  In every run of
`CleanVSBBackupResources` the kinds of the `DeleteAllOf` calls, in the order issued, are an
initial segment of that list; no call is issued when the fetch fails (the store is left as
the fetch left it); every call carries exactly the label selector `VSBLabel == vsb.Name`
and, as its namespace, `vsb.Spec.ProtectedNamespace` of the fetched job `vsb`; and when the
phase is transfer-completed and every delete succeeds, the calls are one per kind of the
whole list, in order, and the store ends in the state reached by those six deletes followed
by the status update. -/
theorem CleanVSBBackupResources_deletes_by_job_label :
    cleanupVSBTypes =
      [Kind.PersistentVolumeClaim, Kind.Pod, Kind.VolumeSnapshot, Kind.VolumeSnapshotContent,
        Kind.Secret, Kind.ReplicationSource] ∧
    ((deleteAllOfCalls (CleanVSBBackupResources K c req s).trace).map Prod.fst
      <+: [Kind.PersistentVolumeClaim, Kind.Pod, Kind.VolumeSnapshot,
        Kind.VolumeSnapshotContent, Kind.Secret, Kind.ReplicationSource]) ∧
    (∀ err s1, c.Get s .VolumeSnapshotBackup req = (.error err, s1) →
      deleteAllOfCalls (CleanVSBBackupResources K c req s).trace = [] ∧
      (CleanVSBBackupResources K c req s).state = s1) ∧
    (∀ vsb s1, c.Get s .VolumeSnapshotBackup req = (.ok vsb, s1) →
      (∀ call ∈ deleteAllOfCalls (CleanVSBBackupResources K c req s).trace,
        call.2 = [DeleteAllOfOption.MatchingLabels [(K.VSBLabel, vsb.Name)],
          DeleteAllOfOption.InNamespace vsb.Spec.ProtectedNamespace]) ∧
      (vsb.Status.Phase = K.DatamoverVolSyncPhaseCompleted →
        deletesSucceed c
          [DeleteAllOfOption.MatchingLabels [(K.VSBLabel, vsb.Name)],
            DeleteAllOfOption.InNamespace vsb.Spec.ProtectedNamespace]
          [Kind.PersistentVolumeClaim, Kind.Pod, Kind.VolumeSnapshot,
            Kind.VolumeSnapshotContent, Kind.Secret, Kind.ReplicationSource] s1 = true →
        deleteAllOfCalls (CleanVSBBackupResources K c req s).trace =
          [Kind.PersistentVolumeClaim, Kind.Pod, Kind.VolumeSnapshot,
            Kind.VolumeSnapshotContent, Kind.Secret, Kind.ReplicationSource].map
            (fun kind =>
              (kind, [DeleteAllOfOption.MatchingLabels [(K.VSBLabel, vsb.Name)],
                DeleteAllOfOption.InNamespace vsb.Spec.ProtectedNamespace])) ∧
        (CleanVSBBackupResources K c req s).state =
          (c.StatusUpdate
            (stateAfterDeletes c
              [DeleteAllOfOption.MatchingLabels [(K.VSBLabel, vsb.Name)],
                DeleteAllOfOption.InNamespace vsb.Spec.ProtectedNamespace]
              [Kind.PersistentVolumeClaim, Kind.Pod, Kind.VolumeSnapshot,
                Kind.VolumeSnapshotContent, Kind.Secret, Kind.ReplicationSource] s1)
            (withPhase vsb K.DatamoverBackupPhaseCompleted)).2)) := by
  obtain ⟨hseg, hnone, hsome⟩ := CleanVSBBackupResources_delete_calls K c req s
  refine ⟨rfl, hseg, fun err s1 hget => ⟨hnone err s1 hget, ?_⟩, fun vsb s1 hget => ?_⟩
  · rw [CleanVSBBackupResources_of_get_error K c req s err s1 hget]
  · obtain ⟨hopts, hall⟩ := hsome vsb s1 hget
    exact ⟨hopts, fun hphase hok =>
      ⟨hall hphase hok, CleanVSBBackupResources_state_of_deleted K c req s vsb s1 hget hphase hok⟩⟩

theorem CleanVSBBackupResources_deletes_by_job_label_witness :
    modelClient.Get sampleStore .VolumeSnapshotBackup sampleReq = (.ok sampleVSB, sampleStore) ∧
    sampleVSB.Status.Phase = sampleConsts.DatamoverVolSyncPhaseCompleted ∧
    deleteAllOfCalls (CleanVSBBackupResources sampleConsts modelClient sampleReq
      sampleStore).trace =
      [Kind.PersistentVolumeClaim, Kind.Pod, Kind.VolumeSnapshot,
        Kind.VolumeSnapshotContent, Kind.Secret, Kind.ReplicationSource].map
        (fun kind =>
          (kind, [DeleteAllOfOption.MatchingLabels [("vsb-label", "b1")],
            DeleteAllOfOption.InNamespace "ns1"])) ∧
    (CleanVSBBackupResources sampleConsts modelClient sampleReq sampleStore).state =
      ⟨[withPhase sampleVSB SnapMoverRestorePhaseCompleted],
        [⟨.Pod, "b2-pod", "ns1", [("vsb-label", "b2")], ⟨"", ""⟩⟩]⟩ :=
  have h := ((CleanVSBBackupResources_deletes_by_job_label sampleConsts modelClient sampleReq
    sampleStore).2.2.2 sampleVSB sampleStore rfl).2 rfl rfl
  ⟨rfl, rfl, h.1, h.2.trans (by decide)⟩

/-- C3: for every `k` in `1..6`, if the job is fetched transfer-completed, the `DeleteAllOf`
calls for the first `k-1` kinds succeed and the one for the `k`-th kind fails with error
`e`, then `CleanVSBBackupResources` returns `(false, e)`, its `DeleteAllOf` calls are exactly
those for the first `k` kinds (none after the `k`-th) and it issues no status update. -/
theorem CleanVSBBackupResources_delete_failure_aborts
    (vsb : VolumeSnapshotBackup) (s1 : σ) (k : Nat) (kind : Kind) (e : Err)
    (hget : c.Get s .VolumeSnapshotBackup req = (.ok vsb, s1))
    (hphase : vsb.Status.Phase = K.DatamoverVolSyncPhaseCompleted)
    (hk1 : 1 ≤ k) (hk6 : k ≤ 6)
    (hkind : cleanupVSBTypes[k - 1]? = some kind)
    (hok : deletesSucceed c (deleteOptionsOf K vsb) (cleanupVSBTypes.take (k - 1)) s1 = true)
    (hfail : (c.DeleteAllOf
      (stateAfterDeletes c (deleteOptionsOf K vsb) (cleanupVSBTypes.take (k - 1)) s1) kind
      (deleteOptionsOf K vsb)).1 = some e) :
    (CleanVSBBackupResources K c req s).result = (false, some e) ∧
    deleteAllOfCalls (CleanVSBBackupResources K c req s).trace =
      (cleanupVSBTypes.take k).map (fun kd => (kd, deleteOptionsOf K vsb)) ∧
    statusUpdates (CleanVSBBackupResources K c req s).trace = [] := by
  have hsplit : cleanupVSBTypes =
      cleanupVSBTypes.take (k - 1) ++ kind :: cleanupVSBTypes.drop k := by
    interval_cases k <;> simp [cleanupVSBTypes] at hkind <;> subst hkind <;> rfl
  have htake : cleanupVSBTypes.take k = cleanupVSBTypes.take (k - 1) ++ [kind] := by
    interval_cases k <;> simp [cleanupVSBTypes] at hkind <;> subst hkind <;> rfl
  rw [CleanVSBBackupResources_of_delete_fail K c req s vsb s1 _ kind _ e hget hphase hsplit
    hok hfail, htake]
  refine ⟨rfl, ?_, ?_⟩
  · simp only [deleteAllOfCalls_append, deleteAllOfCalls_okDeletes, List.map_append]
    rfl
  · simp only [statusUpdates_append, statusUpdates_okDeletes]
    rfl

theorem CleanVSBBackupResources_delete_failure_aborts_witness :
    (CleanVSBBackupResources sampleConsts (scriptedClient sampleVSB sampleVSC) sampleReq
      [none, none, none, some boom]).result = (false, some boom) ∧
    deleteAllOfCalls (CleanVSBBackupResources sampleConsts (scriptedClient sampleVSB sampleVSC)
      sampleReq [none, none, none, some boom]).trace =
      (cleanupVSBTypes.take 3).map (fun kd => (kd, deleteOptionsOf sampleConsts sampleVSB)) ∧
    statusUpdates (CleanVSBBackupResources sampleConsts (scriptedClient sampleVSB sampleVSC)
      sampleReq [none, none, none, some boom]).trace = [] :=
  CleanVSBBackupResources_delete_failure_aborts sampleConsts
    (scriptedClient sampleVSB sampleVSC) sampleReq [none, none, none, some boom]
    sampleVSB [none, none, some boom] 3 .VolumeSnapshot boom rfl rfl (by decide) (by decide)
    rfl rfl rfl

/-- C4: if the job fetch succeeds, the fetched phase is `DatamoverVolSyncPhaseCompleted` and
all six `DeleteAllOf` calls succeed, the store calls of `CleanVSBBackupResources` are the
fetch, the six deletes and then exactly one status update, whose object has `Status.Phase`
equal to `DatamoverBackupPhaseCompleted`; the result is `(true, nil)` if and only if that
update succeeds; and the store is left in the state that status update returned, issued on
the state the six deletes produced.  In every run whose boolean result is `true`, all of
this held and the update succeeded. -/
theorem CleanVSBBackupResources_finalises_as_completed :
    (∀ vsb s1, c.Get s .VolumeSnapshotBackup req = (.ok vsb, s1) →
      vsb.Status.Phase = K.DatamoverVolSyncPhaseCompleted →
      deletesSucceed c (deleteOptionsOf K vsb) cleanupVSBTypes s1 = true →
      storeCalls (CleanVSBBackupResources K c req s).trace =
        Event.Get .VolumeSnapshotBackup req none ::
          okDeletes (deleteOptionsOf K vsb) cleanupVSBTypes ++
          [Event.StatusUpdate (withPhase vsb K.DatamoverBackupPhaseCompleted)
            (c.StatusUpdate (stateAfterDeletes c (deleteOptionsOf K vsb) cleanupVSBTypes s1)
              (withPhase vsb K.DatamoverBackupPhaseCompleted)).1] ∧
      statusUpdates (CleanVSBBackupResources K c req s).trace =
        [withPhase vsb K.DatamoverBackupPhaseCompleted] ∧
      (withPhase vsb K.DatamoverBackupPhaseCompleted).Status.Phase =
        K.DatamoverBackupPhaseCompleted ∧
      ((CleanVSBBackupResources K c req s).result = (true, none) ↔
        (c.StatusUpdate (stateAfterDeletes c (deleteOptionsOf K vsb) cleanupVSBTypes s1)
          (withPhase vsb K.DatamoverBackupPhaseCompleted)).1 = none) ∧
      (CleanVSBBackupResources K c req s).state =
        (c.StatusUpdate (stateAfterDeletes c (deleteOptionsOf K vsb) cleanupVSBTypes s1)
          (withPhase vsb K.DatamoverBackupPhaseCompleted)).2) ∧
    ((CleanVSBBackupResources K c req s).result.1 = true →
      ∃ vsb s1, c.Get s .VolumeSnapshotBackup req = (.ok vsb, s1) ∧
        vsb.Status.Phase = K.DatamoverVolSyncPhaseCompleted ∧
        deletesSucceed c (deleteOptionsOf K vsb) cleanupVSBTypes s1 = true ∧
        (c.StatusUpdate (stateAfterDeletes c (deleteOptionsOf K vsb) cleanupVSBTypes s1)
          (withPhase vsb K.DatamoverBackupPhaseCompleted)).1 = none ∧
        (CleanVSBBackupResources K c req s).state =
          (c.StatusUpdate (stateAfterDeletes c (deleteOptionsOf K vsb) cleanupVSBTypes s1)
            (withPhase vsb K.DatamoverBackupPhaseCompleted)).2) := by
  constructor
  · intro vsb s1 hget hphase hok
    have hstate := CleanVSBBackupResources_state_of_deleted K c req s vsb s1 hget hphase hok
    refine ⟨?_, ?_, rfl, ?_, hstate⟩
    all_goals
      rw [CleanVSBBackupResources_of_deleted K c req s vsb s1 hget hphase hok]
      rcases hupd : c.StatusUpdate
          (stateAfterDeletes c (deleteOptionsOf K vsb) cleanupVSBTypes s1)
          (withPhase vsb K.DatamoverBackupPhaseCompleted) with ⟨r, s3⟩
      cases r
    · simp only [storeCalls_append, storeCalls_okDeletes]
      rfl
    · simp only [storeCalls_append, storeCalls_okDeletes]
      rfl
    · simp only [statusUpdates_append, statusUpdates_okDeletes]
      rfl
    · simp only [statusUpdates_append, statusUpdates_okDeletes]
      rfl
    · simp only
    · simp only [Prod.mk.injEq, Bool.false_eq_true, reduceCtorEq, and_self]
  · intro htrue
    rcases CleanVSBBackupResources_cases K c req s with
      ⟨err, s1, hget, hrun⟩ | ⟨vsb, s1, hget, hphase, hrun⟩ |
      ⟨vsb, s1, pre, kind, post, e, hget, hphase, hsplit, hok, hfail, hrun⟩ |
      ⟨vsb, s1, err, s3, hget, hphase, hok, hupd, hrun⟩ |
      ⟨vsb, s1, s3, hget, hphase, hok, hupd, hrun⟩
    · rw [hrun] at htrue; simp only [Bool.false_eq_true] at htrue
    · rw [hrun] at htrue; simp only [Bool.false_eq_true] at htrue
    · rw [hrun] at htrue; simp only [Bool.false_eq_true] at htrue
    · rw [hrun] at htrue; simp only [Bool.false_eq_true] at htrue
    · exact ⟨vsb, s1, hget, hphase, hok, by rw [hupd],
        CleanVSBBackupResources_state_of_deleted K c req s vsb s1 hget hphase hok⟩

theorem CleanVSBBackupResources_finalises_as_completed_witness :
    modelClient.Get sampleStore .VolumeSnapshotBackup sampleReq = (.ok sampleVSB, sampleStore) ∧
    statusUpdates (CleanVSBBackupResources sampleConsts modelClient sampleReq
      sampleStore).trace = [withPhase sampleVSB SnapMoverRestorePhaseCompleted] ∧
    (CleanVSBBackupResources sampleConsts modelClient sampleReq sampleStore).result
      = (true, none) ∧
    (CleanVSBBackupResources sampleConsts modelClient sampleReq sampleStore).state.jobs
      = [withPhase sampleVSB SnapMoverRestorePhaseCompleted] ∧
    (withPhase sampleVSB SnapMoverRestorePhaseCompleted).Status.Phase = "Completed" :=
  have h := (CleanVSBBackupResources_finalises_as_completed sampleConsts modelClient
    sampleReq sampleStore).1 sampleVSB sampleStore rfl rfl rfl
  ⟨rfl, h.2.1, h.2.2.2.1.2 (by decide), (congrArg Store.jobs h.2.2.2.2).trans (by decide),
    by decide⟩

/-- Read off the trace of any run: a store call that was answered with an error is the
last store call and its error is the one returned; a nil error is returned only when no
store call was answered with an error. -/
theorem CleanVSBBackupResources_failed_call_last :
    (∀ pre ev post e,
      storeCalls (CleanVSBBackupResources K c req s).trace = pre ++ ev :: post →
      ev.answer = some e →
      (CleanVSBBackupResources K c req s).result = (false, some e) ∧ post = []) ∧
    ((CleanVSBBackupResources K c req s).result.2 = none →
      ∀ ev ∈ storeCalls (CleanVSBBackupResources K c req s).trace, ev.answer = none) := by
  have hleading : ∀ (opts : List DeleteAllOfOption) (kinds : List Kind),
      ∀ ev ∈ Event.Get .VolumeSnapshotBackup req none :: okDeletes opts kinds,
        ev.answer = none := by
    intro opts kinds ev hev
    rcases List.mem_cons.1 hev with rfl | h
    · rfl
    · exact answer_okDeletes opts kinds ev h
  rcases CleanVSBBackupResources_cases K c req s with
    ⟨err, s1, hget, hrun⟩ | ⟨vsb, s1, hget, hphase, hrun⟩ |
    ⟨vsb, s1, pre0, kind, post0, e0, hget, hphase, hsplit, hok, hfail, hrun⟩ |
    ⟨vsb, s1, err, s3, hget, hphase, hok, hupd, hrun⟩ |
    ⟨vsb, s1, s3, hget, hphase, hok, hupd, hrun⟩
  · rw [hrun]
    refine ⟨fun pre ev post e hs hev => ?_, fun h => ?_⟩
    · have hcalls : storeCalls [Event.Info "In function CleanBackupResources",
          Event.Get .VolumeSnapshotBackup req (some err)] =
          [] ++ [Event.Get .VolumeSnapshotBackup req (some err)] := rfl
      simp only at hs
      rw [hcalls] at hs
      obtain ⟨h1, h2⟩ := failed_call_is_last [] _ (fun _ h => absurd h (List.not_mem_nil _))
        pre ev post e hs hev
      subst h1
      simp only [Event.answer, Option.some.injEq] at hev
      rw [hev]
      exact ⟨rfl, h2⟩
    · simp only [reduceCtorEq] at h
  · rw [hrun]
    have hall : ∀ ev ∈ storeCalls [Event.Info "In function CleanBackupResources",
        Event.Get .VolumeSnapshotBackup req none,
        Event.Info "waiting for volSync to complete before deleting resources"],
        ev.answer = none := by
      intro ev hev
      have hcalls : storeCalls [Event.Info "In function CleanBackupResources",
          Event.Get .VolumeSnapshotBackup req none,
          Event.Info "waiting for volSync to complete before deleting resources"] =
          [Event.Get .VolumeSnapshotBackup req none] := rfl
      rw [hcalls, List.mem_singleton] at hev
      rw [hev]
      rfl
    exact ⟨fun pre ev post e hs hev => (no_failed_call _ hall pre ev post e hs hev).elim,
      fun _ => hall⟩
  · rw [hrun]
    refine ⟨fun pre ev post e hs hev => ?_, fun h => ?_⟩
    · have hcalls : storeCalls ([Event.Info "In function CleanBackupResources",
          Event.Get .VolumeSnapshotBackup req none] ++
          (okDeletes (deleteOptionsOf K vsb) pre0 ++
            [Event.DeleteAllOf kind (deleteOptionsOf K vsb) (some e0),
              Event.Error e0 "unable to delete VSB resource"])) =
          (Event.Get .VolumeSnapshotBackup req none :: okDeletes (deleteOptionsOf K vsb) pre0)
            ++ [Event.DeleteAllOf kind (deleteOptionsOf K vsb) (some e0)] := by
        simp only [storeCalls_append, storeCalls_okDeletes]
        rfl
      simp only at hs
      rw [hcalls] at hs
      obtain ⟨h1, h2⟩ := failed_call_is_last _ _ (hleading _ _) pre ev post e hs hev
      subst h1
      simp only [Event.answer, Option.some.injEq] at hev
      rw [hev]
      exact ⟨rfl, h2⟩
    · simp only [reduceCtorEq] at h
  · rw [hrun]
    refine ⟨fun pre ev post e hs hev => ?_, fun h => ?_⟩
    · have hcalls : storeCalls ([Event.Info "In function CleanBackupResources",
          Event.Get .VolumeSnapshotBackup req none] ++
          okDeletes (deleteOptionsOf K vsb) cleanupVSBTypes ++
          [Event.StatusUpdate (withPhase vsb K.DatamoverBackupPhaseCompleted) (some err)]) =
          (Event.Get .VolumeSnapshotBackup req none ::
            okDeletes (deleteOptionsOf K vsb) cleanupVSBTypes)
            ++ [Event.StatusUpdate (withPhase vsb K.DatamoverBackupPhaseCompleted)
              (some err)] := by
        simp only [storeCalls_append, storeCalls_okDeletes]
        rfl
      simp only at hs
      rw [hcalls] at hs
      obtain ⟨h1, h2⟩ := failed_call_is_last _ _ (hleading _ _) pre ev post e hs hev
      subst h1
      simp only [Event.answer, Option.some.injEq] at hev
      rw [hev]
      exact ⟨rfl, h2⟩
    · simp only [reduceCtorEq] at h
  · rw [hrun]
    have hcalls : storeCalls ([Event.Info "In function CleanBackupResources",
        Event.Get .VolumeSnapshotBackup req none] ++
        okDeletes (deleteOptionsOf K vsb) cleanupVSBTypes ++
        [Event.StatusUpdate (withPhase vsb K.DatamoverBackupPhaseCompleted) none,
          Event.Info "returning from cleaning VSB resources as completed"]) =
        (Event.Get .VolumeSnapshotBackup req none ::
          okDeletes (deleteOptionsOf K vsb) cleanupVSBTypes)
          ++ [Event.StatusUpdate (withPhase vsb K.DatamoverBackupPhaseCompleted) none] := by
      simp only [storeCalls_append, storeCalls_okDeletes]
      rfl
    have hall : ∀ ev ∈ storeCalls ([Event.Info "In function CleanBackupResources",
        Event.Get .VolumeSnapshotBackup req none] ++
        okDeletes (deleteOptionsOf K vsb) cleanupVSBTypes ++
        [Event.StatusUpdate (withPhase vsb K.DatamoverBackupPhaseCompleted) none,
          Event.Info "returning from cleaning VSB resources as completed"]),
        ev.answer = none := by
      intro ev hev
      rw [hcalls] at hev
      rcases List.mem_append.1 hev with h | h
      · exact hleading _ _ ev h
      · rw [List.mem_singleton] at h
        rw [h]
        rfl
    exact ⟨fun pre ev post e hs hev => (no_failed_call _ hall pre ev post e hs hev).elim,
      fun _ => hall⟩

/-- C6: every store error is surfaced unchanged.  Whatever the store answers:
if the job `Get` returns error `e`, the function returns `(false, e)`, the `Get` is its only
store call and the store is left as the `Get` left it;
if for some `k` in `1..6` the first `k-1` `DeleteAllOf` calls succeed and the `k`-th returns
error `e`, the function returns `(false, e)`, that delete is its last store call and the
store is left as that delete left it;
if all deletes succeed and the status `Update` returns error `e`, the function returns
`(false, e)`, the update is its last store call and the store is left as the update left it;
a nil error is returned only when the `Get` succeeded and either the phase was not
transfer-completed (no other call is issued) or all deletes and the update succeeded;
and in the trace of any run a call answered with `e` is the last store call. -/
theorem CleanVSBBackupResources_surfaces_store_errors (e : Err) :
    (∀ s1, c.Get s .VolumeSnapshotBackup req = (.error e, s1) →
      (CleanVSBBackupResources K c req s).result = (false, some e) ∧
      storeCalls (CleanVSBBackupResources K c req s).trace =
        [Event.Get .VolumeSnapshotBackup req (some e)] ∧
      (CleanVSBBackupResources K c req s).state = s1) ∧
    (∀ vsb s1 k kind, c.Get s .VolumeSnapshotBackup req = (.ok vsb, s1) →
      vsb.Status.Phase = K.DatamoverVolSyncPhaseCompleted →
      1 ≤ k → k ≤ 6 → cleanupVSBTypes[k - 1]? = some kind →
      deletesSucceed c (deleteOptionsOf K vsb) (cleanupVSBTypes.take (k - 1)) s1 = true →
      (c.DeleteAllOf
        (stateAfterDeletes c (deleteOptionsOf K vsb) (cleanupVSBTypes.take (k - 1)) s1) kind
        (deleteOptionsOf K vsb)).1 = some e →
      (CleanVSBBackupResources K c req s).result = (false, some e) ∧
      storeCalls (CleanVSBBackupResources K c req s).trace =
        Event.Get .VolumeSnapshotBackup req none ::
          okDeletes (deleteOptionsOf K vsb) (cleanupVSBTypes.take (k - 1)) ++
          [Event.DeleteAllOf kind (deleteOptionsOf K vsb) (some e)] ∧
      (CleanVSBBackupResources K c req s).state =
        (c.DeleteAllOf
          (stateAfterDeletes c (deleteOptionsOf K vsb) (cleanupVSBTypes.take (k - 1)) s1) kind
          (deleteOptionsOf K vsb)).2) ∧
    (∀ vsb s1, c.Get s .VolumeSnapshotBackup req = (.ok vsb, s1) →
      vsb.Status.Phase = K.DatamoverVolSyncPhaseCompleted →
      deletesSucceed c (deleteOptionsOf K vsb) cleanupVSBTypes s1 = true →
      (c.StatusUpdate (stateAfterDeletes c (deleteOptionsOf K vsb) cleanupVSBTypes s1)
        (withPhase vsb K.DatamoverBackupPhaseCompleted)).1 = some e →
      (CleanVSBBackupResources K c req s).result = (false, some e) ∧
      storeCalls (CleanVSBBackupResources K c req s).trace =
        Event.Get .VolumeSnapshotBackup req none ::
          okDeletes (deleteOptionsOf K vsb) cleanupVSBTypes ++
          [Event.StatusUpdate (withPhase vsb K.DatamoverBackupPhaseCompleted) (some e)] ∧
      (CleanVSBBackupResources K c req s).state =
        (c.StatusUpdate (stateAfterDeletes c (deleteOptionsOf K vsb) cleanupVSBTypes s1)
          (withPhase vsb K.DatamoverBackupPhaseCompleted)).2) ∧
    ((CleanVSBBackupResources K c req s).result.2 = none →
      ∃ vsb s1, c.Get s .VolumeSnapshotBackup req = (.ok vsb, s1) ∧
        (vsb.Status.Phase ≠ K.DatamoverVolSyncPhaseCompleted ∨
          (deletesSucceed c (deleteOptionsOf K vsb) cleanupVSBTypes s1 = true ∧
            (c.StatusUpdate (stateAfterDeletes c (deleteOptionsOf K vsb) cleanupVSBTypes s1)
              (withPhase vsb K.DatamoverBackupPhaseCompleted)).1 = none))) ∧
    (∀ pre ev post,
      storeCalls (CleanVSBBackupResources K c req s).trace = pre ++ ev :: post →
      ev.answer = some e →
      (CleanVSBBackupResources K c req s).result = (false, some e) ∧ post = []) := by
  refine ⟨?_, ?_, ?_, ?_, ?_⟩
  · intro s1 hget
    rw [CleanVSBBackupResources_of_get_error K c req s e s1 hget]
    exact ⟨rfl, rfl, rfl⟩
  · intro vsb s1 k kind hget hphase hk1 hk6 hkind hok hfail
    rw [CleanVSBBackupResources_of_delete_fail K c req s vsb s1 _ kind _ e hget hphase
      (cleanupVSBTypes_split k kind hk1 hk6 hkind) hok hfail]
    refine ⟨rfl, ?_, rfl⟩
    simp only [storeCalls_append, storeCalls_okDeletes]
    rfl
  · intro vsb s1 hget hphase hok hfail
    have hstate := CleanVSBBackupResources_state_of_deleted K c req s vsb s1 hget hphase hok
    refine ⟨?_, ?_, hstate⟩
    all_goals
      rw [CleanVSBBackupResources_of_deleted K c req s vsb s1 hget hphase hok]
      rcases hupd : c.StatusUpdate
          (stateAfterDeletes c (deleteOptionsOf K vsb) cleanupVSBTypes s1)
          (withPhase vsb K.DatamoverBackupPhaseCompleted) with ⟨r, s3⟩
      rw [hupd] at hfail
      simp only at hfail
      subst hfail
    · rfl
    · simp only [storeCalls_append, storeCalls_okDeletes]
      rfl
  · intro hnil
    rcases CleanVSBBackupResources_cases K c req s with
      ⟨err, s1, hget, hrun⟩ | ⟨vsb, s1, hget, hphase, hrun⟩ |
      ⟨vsb, s1, pre, kind, post, e0, hget, hphase, hsplit, hok, hfail, hrun⟩ |
      ⟨vsb, s1, err, s3, hget, hphase, hok, hupd, hrun⟩ |
      ⟨vsb, s1, s3, hget, hphase, hok, hupd, hrun⟩
    · rw [hrun] at hnil; simp only [reduceCtorEq] at hnil
    · exact ⟨vsb, s1, hget, Or.inl hphase⟩
    · rw [hrun] at hnil; simp only [reduceCtorEq] at hnil
    · rw [hrun] at hnil; simp only [reduceCtorEq] at hnil
    · exact ⟨vsb, s1, hget, Or.inr ⟨hok, by rw [hupd]⟩⟩
  · intro pre ev post hs hev
    exact (CleanVSBBackupResources_failed_call_last K c req s).1 pre ev post e hs hev

theorem CleanVSBBackupResources_surfaces_store_errors_witness :
    -- the fetch fails
    ((scriptedClient sampleVSB sampleVSC).Get [some boom] .VolumeSnapshotBackup sampleReq
        = (.error boom, []) ∧
      (CleanVSBBackupResources sampleConsts (scriptedClient sampleVSB sampleVSC) sampleReq
        [some boom]).result = (false, some boom) ∧
      storeCalls (CleanVSBBackupResources sampleConsts (scriptedClient sampleVSB sampleVSC)
        sampleReq [some boom]).trace =
        [Event.Get .VolumeSnapshotBackup sampleReq (some boom)]) ∧
    -- the second delete fails
    ((CleanVSBBackupResources sampleConsts (scriptedClient sampleVSB sampleVSC) sampleReq
        [none, none, some boom]).result = (false, some boom) ∧
      storeCalls (CleanVSBBackupResources sampleConsts (scriptedClient sampleVSB sampleVSC)
        sampleReq [none, none, some boom]).trace =
        Event.Get .VolumeSnapshotBackup sampleReq none ::
          okDeletes (deleteOptionsOf sampleConsts sampleVSB) (cleanupVSBTypes.take (2 - 1)) ++
          [Event.DeleteAllOf .Pod (deleteOptionsOf sampleConsts sampleVSB) (some boom)]) ∧
    -- the status update fails
    ((CleanVSBBackupResources sampleConsts (scriptedClient sampleVSB sampleVSC) sampleReq
        [none, none, none, none, none, none, none, some boom]).result = (false, some boom) ∧
      statusUpdates (CleanVSBBackupResources sampleConsts (scriptedClient sampleVSB sampleVSC)
        sampleReq [none, none, none, none, none, none, none, some boom]).trace =
        [withPhase sampleVSB SnapMoverRestorePhaseCompleted]) :=
  have h1 := (CleanVSBBackupResources_surfaces_store_errors sampleConsts
    (scriptedClient sampleVSB sampleVSC) sampleReq [some boom] boom).1 [] rfl
  have h2 := (CleanVSBBackupResources_surfaces_store_errors sampleConsts
    (scriptedClient sampleVSB sampleVSC) sampleReq [none, none, some boom] boom).2.1
    sampleVSB [none, some boom] 2 .Pod rfl rfl (by decide) (by decide) rfl rfl rfl
  have h3 := (CleanVSBBackupResources_surfaces_store_errors sampleConsts
    (scriptedClient sampleVSB sampleVSC) sampleReq
    [none, none, none, none, none, none, none, some boom] boom).2.2.1
    sampleVSB [none, none, none, none, none, none, some boom] rfl rfl rfl rfl
  ⟨⟨rfl, h1.1, h1.2.1⟩, ⟨h2.1, h2.2.1⟩, ⟨h3.1, by decide⟩⟩

/-- C10: whenever `CleanVSBBackupResources` issues a status update, the fetch at the start
of the pass succeeded and the object written equals the fetched job in every field except
`Status.Phase`, which is `DatamoverBackupPhaseCompleted`: name, namespace, spec, conditions,
`BatchingStatus`, `SnapshotHandle`, content name and timestamps are unchanged. -/
theorem CleanVSBBackupResources_status_write_frame (obj : VolumeSnapshotBackup)
    (hobj : obj ∈ statusUpdates (CleanVSBBackupResources K c req s).trace) :
    ∃ vsb s1, c.Get s .VolumeSnapshotBackup req = (.ok vsb, s1) ∧
      obj.Status.Phase = K.DatamoverBackupPhaseCompleted ∧
      obj.Name = vsb.Name ∧ obj.Namespace = vsb.Namespace ∧ obj.Spec = vsb.Spec ∧
      obj.Status.Conditions = vsb.Status.Conditions ∧
      obj.Status.BatchingStatus = vsb.Status.BatchingStatus ∧
      obj.Status.SnapshotHandle = vsb.Status.SnapshotHandle ∧
      obj.Status.VolumeSnapshotContentName = vsb.Status.VolumeSnapshotContentName ∧
      obj.Status.StartTimestamp = vsb.Status.StartTimestamp ∧
      obj.Status.CompletionTimestamp = vsb.Status.CompletionTimestamp := by
  rcases CleanVSBBackupResources_cases K c req s with
    ⟨err, s1, hget, hrun⟩ | ⟨vsb, s1, hget, hphase, hrun⟩ |
    ⟨vsb, s1, pre0, kind, post0, e0, hget, hphase, hsplit, hok, hfail, hrun⟩ |
    ⟨vsb, s1, err, s3, hget, hphase, hok, hupd, hrun⟩ |
    ⟨vsb, s1, s3, hget, hphase, hok, hupd, hrun⟩
  · rw [hrun] at hobj
    exact absurd hobj (List.not_mem_nil _)
  · rw [hrun] at hobj
    exact absurd hobj (List.not_mem_nil _)
  · rw [hrun] at hobj
    simp only [statusUpdates_append, statusUpdates_okDeletes, List.nil_append] at hobj
    exact absurd hobj (List.not_mem_nil _)
  · rw [hrun] at hobj
    simp only [statusUpdates_append, statusUpdates_okDeletes, List.append_nil] at hobj
    have hmem : obj ∈ [withPhase vsb K.DatamoverBackupPhaseCompleted] := hobj
    rw [List.mem_singleton] at hmem
    subst hmem
    exact ⟨vsb, s1, hget, rfl, rfl, rfl, rfl, rfl, rfl, rfl, rfl, rfl, rfl⟩
  · rw [hrun] at hobj
    simp only [statusUpdates_append, statusUpdates_okDeletes, List.append_nil] at hobj
    have hmem : obj ∈ [withPhase vsb K.DatamoverBackupPhaseCompleted] := hobj
    rw [List.mem_singleton] at hmem
    subst hmem
    exact ⟨vsb, s1, hget, rfl, rfl, rfl, rfl, rfl, rfl, rfl, rfl, rfl, rfl⟩

theorem CleanVSBBackupResources_status_write_frame_witness :
    withPhase sampleVSB SnapMoverRestorePhaseCompleted ∈
      statusUpdates (CleanVSBBackupResources sampleConsts
        (scriptedClient sampleVSB sampleVSC) sampleReq []).trace ∧
    ∃ vsb s1, (scriptedClient sampleVSB sampleVSC).Get [] .VolumeSnapshotBackup sampleReq
        = (.ok vsb, s1) ∧
      (withPhase sampleVSB SnapMoverRestorePhaseCompleted).Status.Phase
        = sampleConsts.DatamoverBackupPhaseCompleted ∧
      (withPhase sampleVSB SnapMoverRestorePhaseCompleted).Name = vsb.Name ∧
      (withPhase sampleVSB SnapMoverRestorePhaseCompleted).Namespace = vsb.Namespace ∧
      (withPhase sampleVSB SnapMoverRestorePhaseCompleted).Spec = vsb.Spec ∧
      (withPhase sampleVSB SnapMoverRestorePhaseCompleted).Status.Conditions
        = vsb.Status.Conditions ∧
      (withPhase sampleVSB SnapMoverRestorePhaseCompleted).Status.BatchingStatus
        = vsb.Status.BatchingStatus ∧
      (withPhase sampleVSB SnapMoverRestorePhaseCompleted).Status.SnapshotHandle
        = vsb.Status.SnapshotHandle ∧
      (withPhase sampleVSB SnapMoverRestorePhaseCompleted).Status.VolumeSnapshotContentName
        = vsb.Status.VolumeSnapshotContentName ∧
      (withPhase sampleVSB SnapMoverRestorePhaseCompleted).Status.StartTimestamp
        = vsb.Status.StartTimestamp ∧
      (withPhase sampleVSB SnapMoverRestorePhaseCompleted).Status.CompletionTimestamp
        = vsb.Status.CompletionTimestamp :=
  have hmem : withPhase sampleVSB SnapMoverRestorePhaseCompleted ∈
      statusUpdates (CleanVSBBackupResources sampleConsts
        (scriptedClient sampleVSB sampleVSC) sampleReq []).trace := by decide
  ⟨hmem, CleanVSBBackupResources_status_write_frame sampleConsts
    (scriptedClient sampleVSB sampleVSC) sampleReq [] _ hmem⟩

end CleanClaims

/-! ## Cleanup over the model store -/

section Model

theorem modelClient_get_job (st : Store) (req : NamespacedName) :
    modelClient.Get st .VolumeSnapshotBackup req =
      match st.jobs.find? fun j => j.Name == req.Name && j.Namespace == req.Namespace with
      | some j => (.ok j, st)
      | none => (.error (notFound req), st) := rfl

theorem modelClient_deletesSucceed (opts : List DeleteAllOfOption) (kinds : List Kind)
    (st : Store) : deletesSucceed modelClient opts kinds st = true := by
  induction kinds generalizing st with
  | nil => rfl
  | cons k rest ih =>
    simp only [deletesSucceed, Bool.and_eq_true, Option.isNone_iff_eq_none]
    exact ⟨rfl, ih _⟩

theorem modelClient_jobs_after_deletes (opts : List DeleteAllOfOption) (kinds : List Kind)
    (st : Store) : (stateAfterDeletes modelClient opts kinds st).jobs = st.jobs := by
  induction kinds generalizing st with
  | nil => rfl
  | cons k rest ih =>
    simp only [stateAfterDeletes, List.foldl_cons] at ih ⊢
    rw [ih]
    rfl

theorem modelClient_statusUpdate (st : Store) (obj : VolumeSnapshotBackup)
    (h : (st.jobs.any fun j => j.Name == obj.Name && j.Namespace == obj.Namespace) = true) :
    modelClient.StatusUpdate st obj =
      (none, { st with jobs := st.jobs.map fun j =>
        if j.Name == obj.Name && j.Namespace == obj.Namespace then
          { j with Status := obj.Status } else j }) := by
  simp only [modelClient, h, if_true]

/-- Looking a job up after every job went through a map that keeps names and namespaces. -/
theorem find_job_map (jobs : List VolumeSnapshotBackup) (req : NamespacedName)
    (f : VolumeSnapshotBackup → VolumeSnapshotBackup)
    (hf : ∀ j, (f j).Name = j.Name ∧ (f j).Namespace = j.Namespace) :
    (jobs.map f).find? (fun j => j.Name == req.Name && j.Namespace == req.Namespace) =
      (jobs.find? fun j => j.Name == req.Name && j.Namespace == req.Namespace).map f := by
  induction jobs with
  | nil => rfl
  | cons j rest ih =>
    simp only [List.map_cons, List.find?_cons, (hf j).1, (hf j).2]
    cases (j.Name == req.Name && j.Namespace == req.Namespace) with
    | true => rfl
    | false => exact ih

/-- C5: cleanup is idempotent over the model store.  Starting from a store that holds the
job with its transfer completed, and given that the transfer-completed marker and the
Completed marker are distinct, a first `CleanVSBBackupResources` succeeds, and a second one
run on the state the first left issues no `DeleteAllOf` and no status update and leaves
that state (jobs and staged resources) as it is. -/
theorem CleanVSBBackupResources_idempotent (K : Consts) (req : NamespacedName) (st : Store)
    (vsb : VolumeSnapshotBackup)
    (hdistinct : K.DatamoverVolSyncPhaseCompleted ≠ K.DatamoverBackupPhaseCompleted)
    (hjob : (modelClient.Get st .VolumeSnapshotBackup req).1 = .ok vsb)
    (hphase : vsb.Status.Phase = K.DatamoverVolSyncPhaseCompleted) :
    (CleanVSBBackupResources K modelClient req st).result = (true, none) ∧
    (CleanVSBBackupResources K modelClient req
      (CleanVSBBackupResources K modelClient req st).state).state =
      (CleanVSBBackupResources K modelClient req st).state ∧
    deleteAllOfCalls (CleanVSBBackupResources K modelClient req
      (CleanVSBBackupResources K modelClient req st).state).trace = [] ∧
    statusUpdates (CleanVSBBackupResources K modelClient req
      (CleanVSBBackupResources K modelClient req st).state).trace = [] ∧
    (CleanVSBBackupResources K modelClient req
      (CleanVSBBackupResources K modelClient req st).state).result = (false, none) := by
  -- the job is stored under the requested key
  have hfind : (st.jobs.find? fun j => j.Name == req.Name && j.Namespace == req.Namespace)
      = some vsb := by
    rw [modelClient_get_job] at hjob
    cases hf : st.jobs.find? fun j => j.Name == req.Name && j.Namespace == req.Namespace with
    | none => rw [hf] at hjob; simp only [reduceCtorEq] at hjob
    | some j =>
      rw [hf] at hjob
      simp only [Except.ok.injEq] at hjob
      rw [hjob]
  have hkey := List.find?_some hfind
  have hmem := List.mem_of_find?_eq_some hfind
  have hget : modelClient.Get st .VolumeSnapshotBackup req = (.ok vsb, st) := by
    rw [modelClient_get_job, hfind]
  -- the first run: all deletes succeed, then the status update succeeds
  have hjobs := modelClient_jobs_after_deletes (deleteOptionsOf K vsb) cleanupVSBTypes st
  have hany : ((stateAfterDeletes modelClient (deleteOptionsOf K vsb) cleanupVSBTypes st).jobs.any
      fun j => j.Name == (withPhase vsb K.DatamoverBackupPhaseCompleted).Name &&
        j.Namespace == (withPhase vsb K.DatamoverBackupPhaseCompleted).Namespace) = true := by
    rw [hjobs, List.any_eq_true]
    refine ⟨vsb, hmem, ?_⟩
    simp only [withPhase, beq_self_eq_true, Bool.and_self]
  have hupd : modelClient.StatusUpdate
      (stateAfterDeletes modelClient (deleteOptionsOf K vsb) cleanupVSBTypes st)
      (withPhase vsb K.DatamoverBackupPhaseCompleted) =
      (none, { stateAfterDeletes modelClient (deleteOptionsOf K vsb) cleanupVSBTypes st with
        jobs := (stateAfterDeletes modelClient (deleteOptionsOf K vsb)
          cleanupVSBTypes st).jobs.map fun j =>
            if j.Name == (withPhase vsb K.DatamoverBackupPhaseCompleted).Name &&
                j.Namespace == (withPhase vsb K.DatamoverBackupPhaseCompleted).Namespace then
              { j with Status := (withPhase vsb K.DatamoverBackupPhaseCompleted).Status }
            else j }) := modelClient_statusUpdate _ _ hany
  have honce := CleanVSBBackupResources_of_deleted K modelClient req st vsb st hget hphase
    (modelClient_deletesSucceed _ _ _)
  rw [hupd] at honce
  simp only at honce
  -- the second run fetches the job with the Completed marker
  have hget2 : modelClient.Get (CleanVSBBackupResources K modelClient req st).state
      .VolumeSnapshotBackup req =
      (.ok (withPhase vsb K.DatamoverBackupPhaseCompleted),
        (CleanVSBBackupResources K modelClient req st).state) := by
    rw [modelClient_get_job, honce]
    simp only
    rw [find_job_map, hjobs, hfind]
    · simp only [Option.map_some', withPhase]
      simp only [Bool.and_eq_true, beq_iff_eq] at hkey
      simp only [beq_self_eq_true, Bool.and_self, if_true]
    · intro j
      split <;> exact ⟨rfl, rfl⟩
  have hphase2 : (withPhase vsb K.DatamoverBackupPhaseCompleted).Status.Phase ≠
      K.DatamoverVolSyncPhaseCompleted := fun h => hdistinct h.symm
  have htwice := CleanVSBBackupResources_of_not_completed K modelClient req _ _ _ hget2 hphase2
  refine ⟨by rw [honce], ?_, ?_, ?_, ?_⟩
  · rw [htwice]
  · rw [htwice]; rfl
  · rw [htwice]; rfl
  · rw [htwice]

theorem CleanVSBBackupResources_idempotent_witness :
    sampleConsts.DatamoverVolSyncPhaseCompleted ≠ sampleConsts.DatamoverBackupPhaseCompleted ∧
    (modelClient.Get sampleStore .VolumeSnapshotBackup sampleReq).1 = .ok sampleVSB ∧
    (CleanVSBBackupResources sampleConsts modelClient sampleReq sampleStore).result
      = (true, none) ∧
    (CleanVSBBackupResources sampleConsts modelClient sampleReq
      (CleanVSBBackupResources sampleConsts modelClient sampleReq sampleStore).state).state =
      (CleanVSBBackupResources sampleConsts modelClient sampleReq sampleStore).state ∧
    deleteAllOfCalls (CleanVSBBackupResources sampleConsts modelClient sampleReq
      (CleanVSBBackupResources sampleConsts modelClient sampleReq sampleStore).state).trace
      = [] ∧
    (CleanVSBBackupResources sampleConsts modelClient sampleReq sampleStore).state.staged
      = [⟨.Pod, "b2-pod", "ns1", [("vsb-label", "b2")], ⟨"", ""⟩⟩] :=
  have h := CleanVSBBackupResources_idempotent sampleConsts sampleReq sampleStore sampleVSB
    (by decide) rfl rfl
  ⟨by decide, rfl, h.1, h.2.1, h.2.2.1, by decide⟩

end Model

/-! ## The verification pass -/

section Verify

variable {σ : Type} (Sprintf : String → String) (c : Client σ) (vsb : VolumeSnapshotBackup)
  (s : σ)

theorem storeCalls_failed_get (t : List Event) (kind : Kind) (key : NamespacedName)
    (err : Err) (msg : String) :
    storeCalls (t ++ Event.Get kind key (some err) ::
      (if IsNotFound err then [Event.Info msg] else [])) =
      storeCalls t ++ [Event.Get kind key (some err)] := by
  rw [storeCalls_append]
  cases IsNotFound err <;> rfl

theorem storeCalls_found_get (t : List Event) (kind : Kind) (key : NamespacedName)
    (msg : String) :
    storeCalls (t ++ [Event.Get kind key none, Event.Info msg]) =
      storeCalls t ++ [Event.Get kind key none] := by
  rw [storeCalls_append]
  rfl

/-- Every run of `areVSBResourcesDeleted` issues lookups that all succeed, then one last
lookup; the result is `(true, nil)` when the last one succeeds too and `(false, err)` when
it fails with `err`. -/
theorem areVSBResourcesDeleted_shape :
    ∃ l last, (∀ ev ∈ l, ev.answer = none) ∧
      storeCalls (areVSBResourcesDeleted Sprintf c vsb s).trace = l ++ [last] ∧
      (areVSBResourcesDeleted Sprintf c vsb s).result = (last.answer.isNone, last.answer) := by
  unfold areVSBResourcesDeleted
  simp only
  split
  · refine ⟨[], _, ?_, storeCalls_failed_get [] _ _ _ _, rfl⟩
    intro ev hev; exact absurd hev (List.not_mem_nil _)
  split
  · refine ⟨_, _, ?_, storeCalls_failed_get _ _ _ _ _, rfl⟩
    simp [storeCalls, Event.isStoreCall, Event.answer]
  split
  · refine ⟨_, _, ?_, storeCalls_failed_get _ _ _ _ _, rfl⟩
    simp [storeCalls, Event.isStoreCall, Event.answer]
  split
  · refine ⟨_, _, ?_, storeCalls_failed_get _ _ _ _ _, rfl⟩
    simp [storeCalls, Event.isStoreCall, Event.answer]
  split
  · refine ⟨_, _, ?_, storeCalls_failed_get _ _ _ _ _, rfl⟩
    simp [storeCalls, Event.isStoreCall, Event.answer]
  split
  · refine ⟨_, _, ?_, storeCalls_failed_get _ _ _ _ _, rfl⟩
    simp [storeCalls, Event.isStoreCall, Event.answer]
  · refine ⟨_, _, ?_, storeCalls_found_get _ _ _ _, rfl⟩
    simp [storeCalls, Event.isStoreCall, Event.answer]

/-- C8: any retrieval error other than `NotFound` is propagated.  Whatever the store
answers: if the lookups before the `i`-th find their resource and the `i`-th lookup (of the
cloned PVC, the pod, the cloned snapshot content, the cloned snapshot, the secret, the
replication source, for `i` from one to six) returns an error `e` that is not `NotFound`,
then `areVSBResourcesDeleted` returns `(false, e)` with that same `e`, its trace is exactly
those `i` lookups (no later lookup is performed) and the store is left as the failing lookup
left it. -/
theorem areVSBResourcesDeleted_propagates_lookup_error (e : Err)
    (hnf : IsNotFound e = false) :
    (∀ (s1 : σ),
      c.Get s .PersistentVolumeClaim
          ⟨vsb.Spec.VolumeSnapshotContent.Name ++ "-pvc", vsb.Spec.ProtectedNamespace⟩ =
        (.error e, s1) →
      (areVSBResourcesDeleted Sprintf c vsb s).result = (false, some e) ∧
      (areVSBResourcesDeleted Sprintf c vsb s).trace =
        [Event.Get .PersistentVolumeClaim
            ⟨vsb.Spec.VolumeSnapshotContent.Name ++ "-pvc", vsb.Spec.ProtectedNamespace⟩ (some e)] ∧
      (areVSBResourcesDeleted Sprintf c vsb s).state = s1) ∧
    (∀ (_u1 : Kind.Obj .PersistentVolumeClaim) (s1 : σ) (s2 : σ),
      c.Get s .PersistentVolumeClaim
          ⟨vsb.Spec.VolumeSnapshotContent.Name ++ "-pvc", vsb.Spec.ProtectedNamespace⟩ =
        (.ok _u1, s1) →
      c.Get s1 .Pod ⟨vsb.Name ++ "-pod", vsb.Spec.ProtectedNamespace⟩ =
        (.error e, s2) →
      (areVSBResourcesDeleted Sprintf c vsb s).result = (false, some e) ∧
      (areVSBResourcesDeleted Sprintf c vsb s).trace =
        [Event.Get .PersistentVolumeClaim
            ⟨vsb.Spec.VolumeSnapshotContent.Name ++ "-pvc", vsb.Spec.ProtectedNamespace⟩ none,
          Event.Get .Pod ⟨vsb.Name ++ "-pod", vsb.Spec.ProtectedNamespace⟩ (some e)] ∧
      (areVSBResourcesDeleted Sprintf c vsb s).state = s2) ∧
    (∀ (_u1 : Kind.Obj .PersistentVolumeClaim) (s1 : σ) (_u2 : Kind.Obj .Pod) (s2 : σ) (s3 : σ),
      c.Get s .PersistentVolumeClaim
          ⟨vsb.Spec.VolumeSnapshotContent.Name ++ "-pvc", vsb.Spec.ProtectedNamespace⟩ =
        (.ok _u1, s1) →
      c.Get s1 .Pod ⟨vsb.Name ++ "-pod", vsb.Spec.ProtectedNamespace⟩ =
        (.ok _u2, s2) →
      c.Get s2 .VolumeSnapshotContent ⟨vsb.Spec.VolumeSnapshotContent.Name ++ "-clone", ""⟩ =
        (.error e, s3) →
      (areVSBResourcesDeleted Sprintf c vsb s).result = (false, some e) ∧
      (areVSBResourcesDeleted Sprintf c vsb s).trace =
        [Event.Get .PersistentVolumeClaim
            ⟨vsb.Spec.VolumeSnapshotContent.Name ++ "-pvc", vsb.Spec.ProtectedNamespace⟩ none,
          Event.Get .Pod ⟨vsb.Name ++ "-pod", vsb.Spec.ProtectedNamespace⟩ none,
          Event.Get .VolumeSnapshotContent
              ⟨vsb.Spec.VolumeSnapshotContent.Name ++ "-clone", ""⟩ (some e)] ∧
      (areVSBResourcesDeleted Sprintf c vsb s).state = s3) ∧
    (∀ (_u1 : Kind.Obj .PersistentVolumeClaim) (s1 : σ)
        (_u2 : Kind.Obj .Pod) (s2 : σ)
        (vscClone : Kind.Obj .VolumeSnapshotContent) (s3 : σ)
        (s4 : σ),
      c.Get s .PersistentVolumeClaim
          ⟨vsb.Spec.VolumeSnapshotContent.Name ++ "-pvc", vsb.Spec.ProtectedNamespace⟩ =
        (.ok _u1, s1) →
      c.Get s1 .Pod ⟨vsb.Name ++ "-pod", vsb.Spec.ProtectedNamespace⟩ =
        (.ok _u2, s2) →
      c.Get s2 .VolumeSnapshotContent ⟨vsb.Spec.VolumeSnapshotContent.Name ++ "-clone", ""⟩ =
        (.ok vscClone, s3) →
      c.Get s3 .VolumeSnapshotContent
          ⟨Sprintf vscClone.Spec.VolumeSnapshotRef.Name, vsb.Spec.ProtectedNamespace⟩ =
        (.error e, s4) →
      (areVSBResourcesDeleted Sprintf c vsb s).result = (false, some e) ∧
      (areVSBResourcesDeleted Sprintf c vsb s).trace =
        [Event.Get .PersistentVolumeClaim
            ⟨vsb.Spec.VolumeSnapshotContent.Name ++ "-pvc", vsb.Spec.ProtectedNamespace⟩ none,
          Event.Get .Pod ⟨vsb.Name ++ "-pod", vsb.Spec.ProtectedNamespace⟩ none,
          Event.Get .VolumeSnapshotContent
              ⟨vsb.Spec.VolumeSnapshotContent.Name ++ "-clone", ""⟩ none,
          Event.Get .VolumeSnapshotContent
              ⟨Sprintf vscClone.Spec.VolumeSnapshotRef.Name, vsb.Spec.ProtectedNamespace⟩ (some e)] ∧
      (areVSBResourcesDeleted Sprintf c vsb s).state = s4) ∧
    (∀ (_u1 : Kind.Obj .PersistentVolumeClaim) (s1 : σ)
        (_u2 : Kind.Obj .Pod) (s2 : σ)
        (vscClone : Kind.Obj .VolumeSnapshotContent) (s3 : σ)
        (_u4 : Kind.Obj .VolumeSnapshotContent) (s4 : σ)
        (s5 : σ),
      c.Get s .PersistentVolumeClaim
          ⟨vsb.Spec.VolumeSnapshotContent.Name ++ "-pvc", vsb.Spec.ProtectedNamespace⟩ =
        (.ok _u1, s1) →
      c.Get s1 .Pod ⟨vsb.Name ++ "-pod", vsb.Spec.ProtectedNamespace⟩ =
        (.ok _u2, s2) →
      c.Get s2 .VolumeSnapshotContent ⟨vsb.Spec.VolumeSnapshotContent.Name ++ "-clone", ""⟩ =
        (.ok vscClone, s3) →
      c.Get s3 .VolumeSnapshotContent
          ⟨Sprintf vscClone.Spec.VolumeSnapshotRef.Name, vsb.Spec.ProtectedNamespace⟩ =
        (.ok _u4, s4) →
      c.Get s4 .Secret ⟨vsb.Name ++ "-secret", vsb.Spec.ProtectedNamespace⟩ =
        (.error e, s5) →
      (areVSBResourcesDeleted Sprintf c vsb s).result = (false, some e) ∧
      (areVSBResourcesDeleted Sprintf c vsb s).trace =
        [Event.Get .PersistentVolumeClaim
            ⟨vsb.Spec.VolumeSnapshotContent.Name ++ "-pvc", vsb.Spec.ProtectedNamespace⟩ none,
          Event.Get .Pod ⟨vsb.Name ++ "-pod", vsb.Spec.ProtectedNamespace⟩ none,
          Event.Get .VolumeSnapshotContent
              ⟨vsb.Spec.VolumeSnapshotContent.Name ++ "-clone", ""⟩ none,
          Event.Get .VolumeSnapshotContent
              ⟨Sprintf vscClone.Spec.VolumeSnapshotRef.Name, vsb.Spec.ProtectedNamespace⟩ none,
          Event.Get .Secret ⟨vsb.Name ++ "-secret", vsb.Spec.ProtectedNamespace⟩ (some e)] ∧
      (areVSBResourcesDeleted Sprintf c vsb s).state = s5) ∧
    (∀ (_u1 : Kind.Obj .PersistentVolumeClaim) (s1 : σ)
        (_u2 : Kind.Obj .Pod) (s2 : σ)
        (vscClone : Kind.Obj .VolumeSnapshotContent) (s3 : σ)
        (_u4 : Kind.Obj .VolumeSnapshotContent) (s4 : σ)
        (_u5 : Kind.Obj .Secret) (s5 : σ)
        (s6 : σ),
      c.Get s .PersistentVolumeClaim
          ⟨vsb.Spec.VolumeSnapshotContent.Name ++ "-pvc", vsb.Spec.ProtectedNamespace⟩ =
        (.ok _u1, s1) →
      c.Get s1 .Pod ⟨vsb.Name ++ "-pod", vsb.Spec.ProtectedNamespace⟩ =
        (.ok _u2, s2) →
      c.Get s2 .VolumeSnapshotContent ⟨vsb.Spec.VolumeSnapshotContent.Name ++ "-clone", ""⟩ =
        (.ok vscClone, s3) →
      c.Get s3 .VolumeSnapshotContent
          ⟨Sprintf vscClone.Spec.VolumeSnapshotRef.Name, vsb.Spec.ProtectedNamespace⟩ =
        (.ok _u4, s4) →
      c.Get s4 .Secret ⟨vsb.Name ++ "-secret", vsb.Spec.ProtectedNamespace⟩ =
        (.ok _u5, s5) →
      c.Get s5 .ReplicationSource ⟨vsb.Name ++ "-rep-src", vsb.Spec.ProtectedNamespace⟩ =
        (.error e, s6) →
      (areVSBResourcesDeleted Sprintf c vsb s).result = (false, some e) ∧
      (areVSBResourcesDeleted Sprintf c vsb s).trace =
        [Event.Get .PersistentVolumeClaim
            ⟨vsb.Spec.VolumeSnapshotContent.Name ++ "-pvc", vsb.Spec.ProtectedNamespace⟩ none,
          Event.Get .Pod ⟨vsb.Name ++ "-pod", vsb.Spec.ProtectedNamespace⟩ none,
          Event.Get .VolumeSnapshotContent
              ⟨vsb.Spec.VolumeSnapshotContent.Name ++ "-clone", ""⟩ none,
          Event.Get .VolumeSnapshotContent
              ⟨Sprintf vscClone.Spec.VolumeSnapshotRef.Name, vsb.Spec.ProtectedNamespace⟩ none,
          Event.Get .Secret ⟨vsb.Name ++ "-secret", vsb.Spec.ProtectedNamespace⟩ none,
          Event.Get .ReplicationSource
              ⟨vsb.Name ++ "-rep-src", vsb.Spec.ProtectedNamespace⟩ (some e)] ∧
      (areVSBResourcesDeleted Sprintf c vsb s).state = s6) := by
  refine ⟨?_, ?_, ?_, ?_, ?_, ?_⟩
  · intro s1 h1
    simp only [areVSBResourcesDeleted, h1, hnf, Bool.false_eq_true, if_false,
      List.cons_append, List.nil_append, and_self]
  · intro _u1 s1 s2 h1 h2
    simp only [areVSBResourcesDeleted, h1, h2, hnf, Bool.false_eq_true, if_false,
      List.cons_append, List.nil_append, and_self]
  · intro _u1 s1 _u2 s2 s3 h1 h2 h3
    simp only [areVSBResourcesDeleted, h1, h2, h3, hnf, Bool.false_eq_true, if_false,
      List.cons_append, List.nil_append, and_self]
  · intro _u1 s1 _u2 s2 vscClone s3 s4 h1 h2 h3 h4
    simp only [areVSBResourcesDeleted, h1, h2, h3, h4, hnf, Bool.false_eq_true, if_false,
      List.cons_append, List.nil_append, and_self]
  · intro _u1 s1 _u2 s2 vscClone s3 _u4 s4 s5 h1 h2 h3 h4 h5
    simp only [areVSBResourcesDeleted, h1, h2, h3, h4, h5, hnf, Bool.false_eq_true, if_false,
      List.cons_append, List.nil_append, and_self]
  · intro _u1 s1 _u2 s2 vscClone s3 _u4 s4 _u5 s5 s6 h1 h2 h3 h4 h5 h6
    simp only [areVSBResourcesDeleted, h1, h2, h3, h4, h5, h6, hnf, Bool.false_eq_true, if_false,
      List.cons_append, List.nil_append, and_self]

theorem areVSBResourcesDeleted_propagates_lookup_error_witness :
    IsNotFound boom = false ∧
    (areVSBResourcesDeleted id (scriptedClient sampleVSB sampleVSC) sampleVSB
      [some boom]).result = (false, some boom) ∧
    (areVSBResourcesDeleted id (scriptedClient sampleVSB sampleVSC) sampleVSB
      [none, some boom]).result = (false, some boom) ∧
    (areVSBResourcesDeleted id (scriptedClient sampleVSB sampleVSC) sampleVSB
      [none, none, some boom]).result = (false, some boom) ∧
    (areVSBResourcesDeleted id (scriptedClient sampleVSB sampleVSC) sampleVSB
      [none, none, none, some boom]).result = (false, some boom) ∧
    (areVSBResourcesDeleted id (scriptedClient sampleVSB sampleVSC) sampleVSB
      [none, none, none, none, some boom]).result = (false, some boom) ∧
    (areVSBResourcesDeleted id (scriptedClient sampleVSB sampleVSC) sampleVSB
      [none, none, none, none, none, some boom]).result = (false, some boom) :=
  ⟨by decide,
    ((areVSBResourcesDeleted_propagates_lookup_error id (scriptedClient sampleVSB sampleVSC)
      sampleVSB [some boom] boom (by decide)).1
      [] rfl).1,
    ((areVSBResourcesDeleted_propagates_lookup_error id (scriptedClient sampleVSB sampleVSC)
      sampleVSB [none, some boom] boom (by decide)).2.1
      () [some boom] [] rfl rfl).1,
    ((areVSBResourcesDeleted_propagates_lookup_error id (scriptedClient sampleVSB sampleVSC)
      sampleVSB [none, none, some boom] boom (by decide)).2.2.1
      () [none, some boom] () [some boom] [] rfl rfl rfl).1,
    ((areVSBResourcesDeleted_propagates_lookup_error id (scriptedClient sampleVSB sampleVSC)
      sampleVSB [none, none, none, some boom] boom (by decide)).2.2.2.1
      () [none, none, some boom] () [none, some boom] sampleVSC [some boom] [] rfl rfl rfl rfl).1,
    ((areVSBResourcesDeleted_propagates_lookup_error id (scriptedClient sampleVSB sampleVSC)
      sampleVSB [none, none, none, none, some boom] boom (by decide)).2.2.2.2.1
      () [none, none, none, some boom] () [none, none, some boom]
          sampleVSC [none, some boom] sampleVSC [some boom] []
          rfl rfl rfl rfl rfl).1,
    ((areVSBResourcesDeleted_propagates_lookup_error id (scriptedClient sampleVSB sampleVSC)
      sampleVSB [none, none, none, none, none, some boom] boom (by decide)).2.2.2.2.2
      () [none, none, none, none, some boom] () [none, none, none, some boom]
          sampleVSC [none, none, some boom] sampleVSC [none, some boom] () [some boom] []
          rfl rfl rfl rfl rfl rfl).1⟩

/-- C7, evaluated on the code: over the model store that holds none of the staged resources
of `b1`, the only lookup performed reports `NotFound` and `areVSBResourcesDeleted` returns
`(false, err)` with that `NotFound` error instead of `(true, nil)`; and over a store in
which every lookup finds its resource it returns `(true, nil)`. -/
theorem areVSBResourcesDeleted_returns_not_found :
    storeCalls (areVSBResourcesDeleted id modelClient sampleVSB cleanedStore).trace =
      [Event.Get .PersistentVolumeClaim ⟨"snapcontent-pvc", "ns1"⟩
        (some (notFound ⟨"snapcontent-pvc", "ns1"⟩))] ∧
    IsNotFound (notFound ⟨"snapcontent-pvc", "ns1"⟩) = true ∧
    (areVSBResourcesDeleted id modelClient sampleVSB cleanedStore).result =
      (false, some (notFound ⟨"snapcontent-pvc", "ns1"⟩)) ∧
    (∀ ev ∈ storeCalls (areVSBResourcesDeleted id (scriptedClient sampleVSB sampleVSC)
      sampleVSB []).trace, ev.answer = none) ∧
    (areVSBResourcesDeleted id (scriptedClient sampleVSB sampleVSC) sampleVSB []).result =
      (true, none) := by
  refine ⟨by decide, by decide, by decide, by decide, by decide⟩

/-- C9, evaluated on the code: in a run of `areVSBResourcesDeleted` in which all six lookups
are performed, the kinds looked up are `PersistentVolumeClaim`, `Pod`,
`VolumeSnapshotContent`, `VolumeSnapshotContent`, `Secret`, `ReplicationSource`: the
snapshot content is looked up twice (the second time under the cloned snapshot's name) and
`VolumeSnapshot` is never looked up. -/
theorem areVSBResourcesDeleted_skips_VolumeSnapshot :
    lookups (areVSBResourcesDeleted id (scriptedClient sampleVSB sampleVSC) sampleVSB
      []).trace =
      [ (.PersistentVolumeClaim, ⟨"snapcontent-pvc", "ns1"⟩),
        (.Pod, ⟨"b1-pod", "ns1"⟩),
        (.VolumeSnapshotContent, ⟨"snapcontent-clone", ""⟩),
        (.VolumeSnapshotContent, ⟨"vs-clone", "ns1"⟩),
        (.Secret, ⟨"b1-secret", "ns1"⟩),
        (.ReplicationSource, ⟨"b1-rep-src", "ns1"⟩) ] ∧
    Kind.VolumeSnapshot ∈ cleanupVSBTypes ∧
    Kind.VolumeSnapshot ∉ (lookups (areVSBResourcesDeleted id
      (scriptedClient sampleVSB sampleVSC) sampleVSB []).trace).map Prod.fst := by
  refine ⟨by decide, by decide, by decide⟩

end Verify

end VolumeSnapshotMover
